import Mathlib

/-!
Verification development for the event-registration backend.

The backend persists events, users, registrations and waitlist entries as
items of a single DynamoDB table addressed by a (partition key, sort key)
pair.  We shallowly embed the table as a list of items, the storage
primitives (`put_item`, `get_item`, `delete_item`, `update_item` with `SET`
expressions, `query` ordered by sort key) as functions on that list, and the
repository/service layer (`user_repository.py`, `event_repository.py`,
`registration_repository.py`, `registration_service.py`, `event_service.py`,
`user_service.py`) as functions over the table.  Timestamps are passed as
explicit string arguments (the code obtains them from `get_timestamp()`).
-/

/-- Attribute values stored in an item: strings, numbers or booleans. -/
inductive AttrVal where
  | s (v : String)
  | n (v : Int)
  | b (v : Bool)
deriving DecidableEq

/-- A table item: partition key, sort key and the remaining attributes. -/
structure Item where
  pk : String
  sk : String
  attrs : List (String × AttrVal)
deriving DecidableEq

/-- The single DynamoDB table, as a list of items. -/
abbrev Table := List Item

/-- Look up a key in an attribute list (first binding wins). -/
def lookupAttr : List (String × AttrVal) → String → Option AttrVal
  | [], _ => none
  | p :: ps, k => if p.1 == k then some p.2 else lookupAttr ps k

/-- Read an attribute of an item. -/
def getAttr (it : Item) (k : String) : Option AttrVal :=
  lookupAttr it.attrs k

/-- Replace the binding of a key in an attribute list, or append it. -/
def setAttrList : List (String × AttrVal) → String → AttrVal → List (String × AttrVal)
  | [], k, v => [(k, v)]
  | p :: ps, k, v => if p.1 == k then (k, v) :: ps else p :: setAttrList ps k v

/-- Set an attribute of an item (replace if present, append otherwise),
modelling a `SET field = value` update expression applied to the item. -/
def setAttr (it : Item) (k : String) (v : AttrVal) : Item :=
  { it with attrs := setAttrList it.attrs k v }

/-- Whether an item sits at the given (partition key, sort key) address. -/
def sameKey (x : Item) (pk sk : String) : Bool :=
  x.pk == pk && x.sk == sk

/-- DynamoDB `get_item`: the first (in a duplicate-free table, the only)
item at the given key, if any. -/
def getItem : Table → String → String → Option Item
  | [], _, _ => none
  | x :: xs, pk, sk => if sameKey x pk sk then some x else getItem xs pk sk

/-- DynamoDB `put_item`: unconditional write, replacing any item at the key. -/
def putItem (t : Table) (it : Item) : Table :=
  t.filter (fun x => !sameKey x it.pk it.sk) ++ [it]

/-- DynamoDB `delete_item`: remove the item at the key (no-op if absent). -/
def deleteItem (t : Table) (pk sk : String) : Table :=
  t.filter (fun x => !sameKey x pk sk)

/-- DynamoDB `update_item` with expression `SET field = :v`: updates the
item at the key, or creates a fresh item holding only that attribute when no
item exists at the key (DynamoDB upsert semantics). -/
def updateItemSet (t : Table) (pk sk field : String) (v : AttrVal) : Table :=
  match getItem t pk sk with
  | some _ => t.map (fun x => if sameKey x pk sk then setAttr x field v else x)
  | none => t ++ [⟨pk, sk, [(field, v)]⟩]

/-- DynamoDB `update_item` with expression `SET field = field + :d`: fails
(with a `ClientError`) when the item or the numeric attribute is absent. -/
def updateItemAdd (t : Table) (pk sk field : String) (d : Int) :
    Option Table :=
  match getItem t pk sk with
  | some it =>
    match getAttr it field with
    | some (.n k) => some (updateItemSet t pk sk field (.n (k + d)))
    | _ => none
  | none => none

/-- Lexicographic comparison of character lists, the order DynamoDB uses on
sort keys within a partition. -/
def charListLe : List Char → List Char → Bool
  | [], _ => true
  | _ :: _, [] => false
  | a :: as, b :: bs => if a < b then true else if a = b then charListLe as bs else false

/-- Lexicographic comparison of sort keys. -/
def skLe (a b : String) : Bool :=
  charListLe a.data b.data

/-- DynamoDB `begins_with` on sort keys. -/
def strStarts (s p : String) : Bool :=
  p.data.isPrefixOf s.data

/-- Ordering of items by sort key, as a relation. -/
def skRel (a b : Item) : Prop :=
  skLe a.sk b.sk = true

instance : DecidableRel skRel := fun _ _ => instDecidableEqBool _ _

/-- DynamoDB `query` with a key condition `PK = pk AND begins_with(SK, p)`:
all matching items, ordered by sort key ascending. -/
def query (t : Table) (pk skPre : String) : List Item :=
  List.insertionSort skRel (t.filter (fun x => x.pk == pk && strStarts x.sk skPre))

/-! ### Domain model (`models/domain.py`) and error kinds (`exceptions.py`) -/

structure DomainEvent where
  event_id : String
  title : String
  description : String
  date : String
  location : String
  capacity : Int
  organizer : String
  status : String
  current_registrations : Int
  waitlist_enabled : Bool
  created_at : String
  updated_at : String
deriving DecidableEq

structure DomainUser where
  user_id : String
  name : String
  created_at : String
deriving DecidableEq

structure DomainRegistration where
  user_id : String
  event_id : String
  registration_status : String
  registered_at : String
deriving DecidableEq

/-- Error kinds raised by the services: `notFound`, `alreadyExists` and
`capacityExceeded` map the domain exceptions; `badRequest` maps the
`ValueError` on an empty update; `storeFault` stands for a `RepositoryError`
or an unhandled error (e.g. a `KeyError` on a malformed item) escaping the
call. -/
inductive Err where
  | notFound
  | alreadyExists
  | capacityExceeded
  | badRequest
  | storeFault
deriving DecidableEq

/-! ### Event repository (`repositories/event_repository.py`) -/

/-- The item written for an event by `EventRepository.create`. -/
def eventItem (e : DomainEvent) : Item :=
  ⟨"EVENT#" ++ e.event_id, "METADATA",
    [("eventId", .s e.event_id), ("title", .s e.title),
     ("description", .s e.description), ("date", .s e.date),
     ("location", .s e.location), ("capacity", .n e.capacity),
     ("organizer", .s e.organizer), ("status", .s e.status),
     ("currentRegistrations", .n e.current_registrations),
     ("waitlistEnabled", .b e.waitlist_enabled),
     ("createdAt", .s e.created_at), ("updatedAt", .s e.updated_at)]⟩

/-- `EventRepository.create`: an unconditional `put_item` with no condition
expression, overwriting any existing item at the key. -/
def event_repo_create (t : Table) (e : DomainEvent) : Table :=
  putItem t (eventItem e)

/-- A required string field (a missing or non-string value fails). -/
def asStr : Option AttrVal → Option String
  | some (.s v) => some v
  | _ => none

/-- A required numeric field (a missing or non-numeric value fails). -/
def asNum : Option AttrVal → Option Int
  | some (.n v) => some v
  | _ => none

/-- A numeric field defaulting to 0 when absent (`item.get(..., 0)`). -/
def numOrZero : Option AttrVal → Option Int
  | some (.n v) => some v
  | none => some 0
  | _ => none

/-- A boolean field defaulting to false when absent (`item.get(..., False)`). -/
def boolOrFalse : Option AttrVal → Option Bool
  | some (.b v) => some v
  | none => some false
  | _ => none

/-- Parse an event item the way `EventRepository.get_by_id` builds a
`DomainEvent`: the required fields raise a `KeyError` when absent (parse
failure); `currentRegistrations` defaults to 0 and `waitlistEnabled` to
false when absent (`item.get(..., default)`). -/
def eventOfItem (it : Item) : Option DomainEvent :=
  (asStr (getAttr it "eventId")).bind fun eid =>
  (asStr (getAttr it "title")).bind fun ti =>
  (asStr (getAttr it "description")).bind fun de =>
  (asStr (getAttr it "date")).bind fun da =>
  (asStr (getAttr it "location")).bind fun lo =>
  (asNum (getAttr it "capacity")).bind fun cap =>
  (asStr (getAttr it "organizer")).bind fun org =>
  (asStr (getAttr it "status")).bind fun st =>
  (numOrZero (getAttr it "currentRegistrations")).bind fun cr =>
  (boolOrFalse (getAttr it "waitlistEnabled")).bind fun wl =>
  (asStr (getAttr it "createdAt")).bind fun ca =>
  (asStr (getAttr it "updatedAt")).map fun ua =>
  ⟨eid, ti, de, da, lo, cap, org, st, cr, wl, ca, ua⟩

/-- `EventRepository.get_by_id`: `ok none` when the item is absent, an error
when the stored item cannot be parsed. -/
def event_get_by_id (t : Table) (eid : String) : Except Err (Option DomainEvent) :=
  match getItem t ("EVENT#" ++ eid) "METADATA" with
  | none => .ok none
  | some it =>
    match eventOfItem it with
    | some e => .ok (some e)
    | none => .error .storeFault

/-- `EventRepository.update`: checks existence via `get_by_id`, then applies
one `update_item` whose `SET` expression covers all given fields. -/
def event_repo_update (t : Table) (eid : String)
    (updates : List (String × AttrVal)) : Except Err Table :=
  match event_get_by_id t eid with
  | .error e => .error e
  | .ok none => .error .notFound
  | .ok (some _) =>
    .ok (updates.foldl (fun acc kv =>
      updateItemSet acc ("EVENT#" ++ eid) "METADATA" kv.1 kv.2) t)

/-- `EventRepository.delete`: checks existence via `get_by_id`, then deletes. -/
def event_repo_delete (t : Table) (eid : String) : Except Err Table :=
  match event_get_by_id t eid with
  | .error e => .error e
  | .ok none => .error .notFound
  | .ok (some _) => .ok (deleteItem t ("EVENT#" ++ eid) "METADATA")

/-- `EventRepository.increment_registrations`:
`SET currentRegistrations = currentRegistrations + 1`. -/
def increment_registrations (t : Table) (eid : String) : Except Err Table :=
  match updateItemAdd t ("EVENT#" ++ eid) "METADATA" "currentRegistrations" 1 with
  | some t2 => .ok t2
  | none => .error .storeFault

/-- `EventRepository.decrement_registrations`:
`SET currentRegistrations = currentRegistrations - 1`. -/
def decrement_registrations (t : Table) (eid : String) : Except Err Table :=
  match updateItemAdd t ("EVENT#" ++ eid) "METADATA" "currentRegistrations" (-1) with
  | some t2 => .ok t2
  | none => .error .storeFault

/-! ### User repository (`repositories/user_repository.py`) -/

/-- The item written for a user by `UserRepository.create`. -/
def userItem (u : DomainUser) : Item :=
  ⟨"USER#" ++ u.user_id, "PROFILE",
    [("userId", .s u.user_id), ("name", .s u.name), ("createdAt", .s u.created_at)]⟩

/-- `UserRepository.create`: a conditional put (`attribute_not_exists(PK)`),
failing with AlreadyExists when an item already sits at the key. -/
def user_repo_create (t : Table) (u : DomainUser) : Table × Except Err DomainUser :=
  match getItem t ("USER#" ++ u.user_id) "PROFILE" with
  | some _ => (t, .error .alreadyExists)
  | none => (putItem t (userItem u), .ok u)

/-- Parse a user item as `UserRepository.get_by_id` builds a `DomainUser`. -/
def userOfItem (it : Item) : Option DomainUser :=
  match getAttr it "userId", getAttr it "name", getAttr it "createdAt" with
  | some (.s uid), some (.s nm), some (.s ca) => some ⟨uid, nm, ca⟩
  | _, _, _ => none

/-- `UserRepository.get_by_id`. -/
def user_get_by_id (t : Table) (uid : String) : Except Err (Option DomainUser) :=
  match getItem t ("USER#" ++ uid) "PROFILE" with
  | none => .ok none
  | some it =>
    match userOfItem it with
    | some u => .ok (some u)
    | none => .error .storeFault

/-! ### Registration repository (`repositories/registration_repository.py`) -/

/-- The by-user mirror record of a registration. -/
def regByUserItem (r : DomainRegistration) : Item :=
  ⟨"USER#" ++ r.user_id, "EVENT#" ++ r.event_id,
    [("userId", .s r.user_id), ("eventId", .s r.event_id),
     ("registrationStatus", .s r.registration_status),
     ("registeredAt", .s r.registered_at)]⟩

/-- The by-event mirror record of a registration. -/
def regByEventItem (r : DomainRegistration) : Item :=
  ⟨"EVENT#" ++ r.event_id, "REGISTRATION#" ++ r.user_id,
    [("userId", .s r.user_id), ("eventId", .s r.event_id),
     ("registrationStatus", .s r.registration_status),
     ("registeredAt", .s r.registered_at)]⟩

/-- `RegistrationRepository.create_registration`: two `put_item` calls
writing the two mirror records. -/
def create_registration (t : Table) (r : DomainRegistration) : Table :=
  putItem (putItem t (regByUserItem r)) (regByEventItem r)

/-- Parse a registration item as `get_registration` builds a
`DomainRegistration` (a missing field raises a `KeyError`). -/
def regOfItem (it : Item) : Option DomainRegistration :=
  match getAttr it "userId", getAttr it "eventId",
      getAttr it "registrationStatus", getAttr it "registeredAt" with
  | some (.s uid), some (.s eid), some (.s st), some (.s ra) =>
    some ⟨uid, eid, st, ra⟩
  | _, _, _, _ => none

/-- `RegistrationRepository.get_registration`: reads the by-user mirror. -/
def get_registration (t : Table) (uid eid : String) :
    Except Err (Option DomainRegistration) :=
  match getItem t ("USER#" ++ uid) ("EVENT#" ++ eid) with
  | none => .ok none
  | some it =>
    match regOfItem it with
    | some r => .ok (some r)
    | none => .error .storeFault

/-- `RegistrationRepository.delete_registration`: deletes both mirrors. -/
def delete_registration (t : Table) (uid eid : String) : Table :=
  deleteItem (deleteItem t ("USER#" ++ uid) ("EVENT#" ++ eid))
    ("EVENT#" ++ eid) ("REGISTRATION#" ++ uid)

/-- `RegistrationRepository.add_to_waitlist`: one `put_item` keyed by the
timestamp and the user id. -/
def add_to_waitlist (t : Table) (uid eid ts : String) : Table :=
  putItem t ⟨"EVENT#" ++ eid, "WAITLIST#" ++ ts ++ "#" ++ uid,
    [("userId", .s uid), ("eventId", .s eid), ("addedAt", .s ts)]⟩

/-- `RegistrationRepository.get_first_waitlisted`: the query returns all
`WAITLIST#` items of the partition ordered by sort key ascending and
`Limit=1` keeps the first. -/
def get_first_waitlisted (t : Table) (eid : String) : Option Item :=
  (query t ("EVENT#" ++ eid) "WAITLIST#").head?

/-- `RegistrationRepository.remove_from_waitlist`. -/
def remove_from_waitlist (t : Table) (pk sk : String) : Table :=
  deleteItem t pk sk

/-- `RegistrationRepository.update_registration_status`: two `update_item`
calls setting `registrationStatus` on both mirrors (DynamoDB creates a fresh
item holding only that attribute when a mirror is absent). -/
def update_registration_status (t : Table) (uid eid st : String) : Table :=
  updateItemSet
    (updateItemSet t ("USER#" ++ uid) ("EVENT#" ++ eid) "registrationStatus" (.s st))
    ("EVENT#" ++ eid) ("REGISTRATION#" ++ uid) "registrationStatus" (.s st)

/-! ### Services (`registration_service.py`, `event_service.py`,
`user_service.py`) -/

/-- `RegistrationService.register_user`.  Returns the table after the call
together with the result; in the code every raise precedes the first write
(or, for a failing increment, coincides with it), so on an error the table
is unchanged. -/
def register_user (t : Table) (uid eid ts : String) :
    Table × Except Err DomainRegistration :=
  match user_get_by_id t uid with
  | .error e => (t, .error e)
  | .ok none => (t, .error .notFound)
  | .ok (some _) =>
    match event_get_by_id t eid with
    | .error e => (t, .error e)
    | .ok none => (t, .error .notFound)
    | .ok (some ev) =>
      match get_registration t uid eid with
      | .error e => (t, .error e)
      | .ok (some _) => (t, .error .alreadyExists)
      | .ok none =>
        if ev.current_registrations ≥ ev.capacity then
          if ev.waitlist_enabled = false then
            (t, .error .capacityExceeded)
          else
            (create_registration (add_to_waitlist t uid eid ts)
              ⟨uid, eid, "waitlisted", ts⟩, .ok ⟨uid, eid, "waitlisted", ts⟩)
        else
          match increment_registrations t eid with
          | .error e => (t, .error e)
          | .ok t1 =>
            (create_registration t1 ⟨uid, eid, "registered", ts⟩,
              .ok ⟨uid, eid, "registered", ts⟩)

/-- `RegistrationService.unregister_user`.  Returns the table after the call
(including the partial writes when an error escapes mid-sequence) and the
raised error, if any. -/
def unregister_user (t : Table) (uid eid : String) : Table × Option Err :=
  match get_registration t uid eid with
  | .error e => (t, some e)
  | .ok none => (t, some .notFound)
  | .ok (some reg) =>
    if reg.registration_status = "registered" then
      match decrement_registrations t eid with
      | .error e => (t, some e)
      | .ok t1 =>
        match get_first_waitlisted t1 eid with
        | none => (delete_registration t1 uid eid, none)
        | some w =>
          match getAttr w "userId" with
          | some (.s wuid) =>
            let t3 := remove_from_waitlist
              (update_registration_status t1 wuid eid "registered") w.pk w.sk
            match increment_registrations t3 eid with
            | .error e => (t3, some e)
            | .ok t4 => (delete_registration t4 uid eid, none)
          | _ => (t1, some .storeFault)
    else
      (delete_registration t uid eid, none)

/-- `UserService.create_user` (the timestamp becomes `createdAt`). -/
def create_user (t : Table) (uid nm ts : String) : Table × Except Err DomainUser :=
  user_repo_create t ⟨uid, nm, ts⟩

/-- `EventService.create_event` with an explicit `eventId` (the service
falls back to a random UUID when none is supplied; we always pass one).
`currentRegistrations` starts at 0, `createdAt = updatedAt = timestamp`. -/
def create_event (t : Table) (eid ti de da lo : String) (cap : Int)
    (org st : String) (wl : Bool) (ts : String) : Table × DomainEvent :=
  (event_repo_create t ⟨eid, ti, de, da, lo, cap, org, st, 0, wl, ts, ts⟩,
    ⟨eid, ti, de, da, lo, cap, org, st, 0, wl, ts, ts⟩)

/-- The fields an `EventUpdate` request body may carry (`models/api.py`);
absent fields are omitted from the update (`exclude_unset`). -/
structure EventUpdate where
  title : Option String
  description : Option String
  date : Option String
  location : Option String
  capacity : Option Int
  organizer : Option String
  status : Option String
  waitlistEnabled : Option Bool
deriving DecidableEq

/-- One optional field of an update body: present fields contribute their
field/value pair, absent fields contribute nothing. -/
def optField {α : Type} (nm : String) (f : α → AttrVal) : Option α → List (String × AttrVal)
  | some v => [(nm, f v)]
  | none => []

/-- The field/value pairs of an `EventUpdate`, in model order. -/
def updateData (u : EventUpdate) : List (String × AttrVal) :=
  optField "title" AttrVal.s u.title ++
  optField "description" AttrVal.s u.description ++
  optField "date" AttrVal.s u.date ++
  optField "location" AttrVal.s u.location ++
  optField "capacity" AttrVal.n u.capacity ++
  optField "organizer" AttrVal.s u.organizer ++
  optField "status" AttrVal.s u.status ++
  optField "waitlistEnabled" AttrVal.b u.waitlistEnabled

/-- `EventService.update_event`: rejects an empty update (`ValueError`),
appends `updatedAt = get_timestamp()` and delegates to the repository. -/
def update_event (t : Table) (eid : String) (u : EventUpdate) (ts : String) :
    Except Err Table :=
  if updateData u = [] then .error .badRequest
  else event_repo_update t eid (updateData u ++ [("updatedAt", .s ts)])

/-- `EventService.delete_event`. -/
def delete_event (t : Table) (eid : String) : Except Err Table :=
  event_repo_delete t eid

/-! ### Operation sequences -/

/-- The mutating API operations, as invoked by the route layer. -/
inductive Op where
  | createUser (uid nm ts : String)
  | createEvent (eid ti de da lo : String) (cap : Int) (org st : String)
      (wl : Bool) (ts : String)
  | updateEvent (eid : String) (u : EventUpdate) (ts : String)
  | deleteEvent (eid : String)
  | register (uid eid ts : String)
  | unregister (uid eid : String)

/-- The table after one operation: an operation that raises before its first
write leaves the table unchanged; `register`/`unregister` return the table
with exactly the writes performed before returning or raising. -/
def applyOp (t : Table) : Op → Table
  | .createUser uid nm ts => (create_user t uid nm ts).1
  | .createEvent eid ti de da lo cap org st wl ts =>
    (create_event t eid ti de da lo cap org st wl ts).1
  | .updateEvent eid u ts =>
    match update_event t eid u ts with
    | .ok t2 => t2
    | .error _ => t
  | .deleteEvent eid =>
    match delete_event t eid with
    | .ok t2 => t2
    | .error _ => t
  | .register uid eid ts => (register_user t uid eid ts).1
  | .unregister uid eid => (unregister_user t uid eid).1

/-- The table after a sequence of operations. -/
def runOps (t : Table) (ops : List Op) : Table :=
  ops.foldl applyOp t

/-- Whether an operation is a registration-engine call. -/
def isEngineOp : Op → Bool
  | .register _ _ _ => true
  | .unregister _ _ => true
  | _ => false

/-! ### Observation helpers -/

/-- The attribute `field` of the item at a key, if both exist. -/
def fieldAt (t : Table) (pk sk field : String) : Option AttrVal :=
  match getItem t pk sk with
  | some it => getAttr it field
  | none => none

/-- The `registrationStatus` stored at a key. -/
def statusAt (t : Table) (pk sk : String) : Option AttrVal :=
  fieldAt t pk sk "registrationStatus"

/-- The stored `currentRegistrations` attribute of an event. -/
def counterAttr (t : Table) (eid : String) : Option AttrVal :=
  fieldAt t ("EVENT#" ++ eid) "METADATA" "currentRegistrations"

/-- The number of by-event registration records of an event whose
`registrationStatus` is `registered`. -/
def registeredCount (t : Table) (eid : String) : Nat :=
  (t.filter (fun x => x.pk == ("EVENT#" ++ eid) && strStarts x.sk "REGISTRATION#" &&
    (getAttr x "registrationStatus" == some (AttrVal.s "registered")))).length

/-- The number of items stored at a key. -/
def keyCount (t : Table) (pk sk : String) : Nat :=
  (t.filter (fun x => sameKey x pk sk)).length

/-- The stored counter of an event item, reading a missing or non-numeric
attribute as 0. -/
def itemCtr (it : Item) : Int :=
  match getAttr it "currentRegistrations" with
  | some (.n k) => k
  | _ => 0

/-- The stored capacity of an event item, reading a missing or non-numeric
attribute as 0. -/
def itemCap (it : Item) : Int :=
  match getAttr it "capacity" with
  | some (.n c) => c
  | _ => 0

/-! ### Invariants and concrete traces used by the verification -/

/-- Mirror consistency at one (user, event) pair: the two mirror records
either both exist and carry equal `registrationStatus` attributes, or
neither exists. -/
def mirrorAgree (t : Table) (u e : String) : Prop :=
  (getItem t ("USER#" ++ u) ("EVENT#" ++ e)).isSome =
    (getItem t ("EVENT#" ++ e) ("REGISTRATION#" ++ u)).isSome ∧
  statusAt t ("USER#" ++ u) ("EVENT#" ++ e) =
    statusAt t ("EVENT#" ++ e) ("REGISTRATION#" ++ u)

/-- Mirror consistency for all pairs. -/
def MirrorInv (t : Table) : Prop :=
  ∀ u e, mirrorAgree t u e

/-- Decidable check that one event item respects `counter at most capacity`. -/
def ctrLeCapAt (t : Table) (e : String) : Bool :=
  match getItem t ("EVENT#" ++ e) "METADATA" with
  | some it => decide (itemCtr it ≤ itemCap it)
  | none => true

/-- Every stored event item's counter is at most its stored capacity. -/
def ctrLeCap (t : Table) : Prop :=
  ∀ e, ctrLeCapAt t e = true

/-- Trace: a capacity-1 event with waitlist enabled; A registers, B is
waitlisted at T2.  The call under scrutiny is `unregister B`. -/
def unregisterWaitlistedTrace : List Op :=
  [.createUser "A" "Alice" "T0",
   .createUser "B" "Bob" "T0",
   .createEvent "E1" "Launch" "d" "2025-01-01" "HQ" 1 "Org" "scheduled" true "T0",
   .register "A" "E1" "T1",
   .register "B" "E1" "T2"]

/-- Trace: after the prefix above, B cancels (the waitlist entry at T2 stays
behind), B re-registers onto the waitlist at T4, A cancels (promoting B via
the orphaned T2 entry and leaving the T4 entry), C joins the waitlist at T5.
The call under scrutiny is the final `unregister B`. -/
def counterDriftTrace : List Op :=
  [.createUser "A" "Alice" "T0",
   .createUser "B" "Bob" "T0",
   .createUser "C" "Carol" "T0",
   .createEvent "E1" "Launch" "d" "2025-01-01" "HQ" 1 "Org" "scheduled" true "T0",
   .register "A" "E1" "T1",
   .register "B" "E1" "T2",
   .unregister "B" "E1",
   .register "B" "E1" "T4",
   .unregister "A" "E1",
   .register "C" "E1" "T5"]

/-- Trace: two users fill a capacity-2 event, then an `updateEvent` lowers
the capacity to 1. -/
def capacityLowerTrace : List Op :=
  [.createUser "A" "Alice" "T0",
   .createUser "B" "Bob" "T0",
   .createEvent "E1" "Launch" "d" "2025-01-01" "HQ" 2 "Org" "scheduled" false "T0",
   .register "A" "E1" "T1",
   .register "B" "E1" "T2",
   .updateEvent "E1" ⟨none, none, none, none, some 1, none, none, none⟩ "T3"]

/-- The table after creating event E1 with title `first`. -/
def c8FirstTable : Table :=
  (create_event [] "E1" "first" "d" "2025-01-01" "HQ" 5 "Org" "scheduled" false "T0").1

/-- The table after a second create call reusing the id E1. -/
def c8SecondTable : Table :=
  (create_event c8FirstTable "E1" "second" "d2" "2025-01-02" "Annex" 7 "Org2"
    "scheduled" false "T1").1

/-! ### Basic lemmas about the ordering, prefixes and keys -/

theorem charListLe_cons {a b : Char} {as bs : List Char} :
    charListLe (a :: as) (b :: bs) = true ↔ a < b ∨ (a = b ∧ charListLe as bs = true) := by
  simp only [charListLe]
  split_ifs with h1 h2
  · simp [h1]
  · simp [h1, h2]
  · simp [h1, h2]

theorem charListLe_refl (l : List Char) : charListLe l l = true := by
  induction l with
  | nil => rfl
  | cons a as ih => simp [charListLe_cons, ih]

theorem charListLe_total (l1 l2 : List Char) :
    charListLe l1 l2 = true ∨ charListLe l2 l1 = true := by
  induction l1 generalizing l2 with
  | nil => exact Or.inl rfl
  | cons a as ih =>
    cases l2 with
    | nil => exact Or.inr rfl
    | cons b bs =>
      rcases lt_trichotomy a b with h | h | h
      · exact Or.inl (by simp [charListLe_cons, h])
      · subst h
        rcases ih bs with h2 | h2
        · exact Or.inl (by simp [charListLe_cons, h2])
        · exact Or.inr (by simp [charListLe_cons, h2])
      · exact Or.inr (by simp [charListLe_cons, h])

theorem charListLe_trans {l1 l2 l3 : List Char} (h1 : charListLe l1 l2 = true)
    (h2 : charListLe l2 l3 = true) : charListLe l1 l3 = true := by
  induction l1 generalizing l2 l3 with
  | nil => rfl
  | cons a as ih =>
    cases l2 with
    | nil => simp [charListLe] at h1
    | cons b bs =>
      cases l3 with
      | nil => simp [charListLe] at h2
      | cons c cs =>
        rw [charListLe_cons] at h1 h2 ⊢
        rcases h1 with h1 | ⟨hab, h1⟩
        · rcases h2 with h2 | ⟨hbc, h2⟩
          · exact Or.inl (lt_trans h1 h2)
          · exact Or.inl (hbc ▸ h1)
        · rcases h2 with h2 | ⟨hbc, h2⟩
          · exact Or.inl (hab ▸ h2)
          · exact Or.inr ⟨hab.trans hbc, ih h1 h2⟩

theorem skLe_refl (s : String) : skLe s s = true :=
  charListLe_refl s.data

theorem ne_of_data_head_ne {s t : String} (h : s.data.head? ≠ t.data.head?) :
    s ≠ t :=
  fun he => h (by rw [he])

theorem append_data_head {a : String} (u : String) (ha : a.data ≠ []) :
    (a ++ u).data.head? = a.data.head? := by
  rw [String.data_append]
  cases h : a.data with
  | nil => exact absurd h ha
  | cons c cs => simp

theorem strStarts_data_head {s p : String} (h : strStarts s p = true)
    (hp : p.data ≠ []) : s.data.head? = p.data.head? := by
  rcases List.isPrefixOf_iff_prefix.mp h with ⟨r, hr⟩
  rw [← hr]
  cases hq : p.data with
  | nil => exact absurd hq hp
  | cons c cs => simp

theorem append_left_cancel {a u v : String} (h : a ++ u = a ++ v) : u = v := by
  have h2 : a.data ++ u.data = a.data ++ v.data := by
    have h3 := congrArg String.data h
    simpa [String.data_append] using h3
  have h4 : u.data = v.data := List.append_cancel_left h2
  cases u
  cases v
  exact congrArg String.mk h4

theorem append_ne_append {a b : String} (u v : String) (ha : a.data ≠ [])
    (hb : b.data ≠ []) (h : a.data.head? ≠ b.data.head?) : a ++ u ≠ b ++ v := by
  apply ne_of_data_head_ne
  rw [append_data_head u ha, append_data_head v hb]
  exact h

theorem ne_append {a b : String} (v : String) (hb : b.data ≠ [])
    (h : a.data.head? ≠ b.data.head?) : a ≠ b ++ v := by
  apply ne_of_data_head_ne
  rw [append_data_head v hb]
  exact h

theorem append_ne {a b : String} (u : String) (ha : a.data ≠ [])
    (h : a.data.head? ≠ b.data.head?) : a ++ u ≠ b := by
  apply ne_of_data_head_ne
  rw [append_data_head u ha]
  exact h

theorem strStarts_append (a u : String) : strStarts (a ++ u) a = true := by
  rw [strStarts, String.data_append]
  exact List.isPrefixOf_iff_prefix.mpr ⟨u.data, rfl⟩

/-! ### Lemmas characterising the storage primitives -/

theorem sameKey_iff {x : Item} {pk sk : String} :
    sameKey x pk sk = true ↔ x.pk = pk ∧ x.sk = sk := by
  simp [sameKey]

theorem sameKey_true {x : Item} {pk sk : String}
    (h : x.pk = pk ∧ x.sk = sk) : sameKey x pk sk = true :=
  sameKey_iff.mpr h

theorem sameKey_false {x : Item} {pk sk : String}
    (h : ¬(x.pk = pk ∧ x.sk = sk)) : sameKey x pk sk = false := by
  rw [Bool.eq_false_iff]
  intro hb
  exact h (sameKey_iff.mp hb)

theorem lookupAttr_setAttrList (l : List (String × AttrVal)) (k k2 : String)
    (v : AttrVal) :
    lookupAttr (setAttrList l k v) k2 = if k2 = k then some v else lookupAttr l k2 := by
  induction l with
  | nil =>
    by_cases h : k2 = k
    · simp [setAttrList, lookupAttr, h]
    · simp [setAttrList, lookupAttr, h, Ne.symm h]
  | cons p ps ih =>
    by_cases h1 : p.1 = k
    · by_cases h2 : k2 = k
      · simp [setAttrList, lookupAttr, h1, h2]
      · simp [setAttrList, lookupAttr, h1, h2, Ne.symm h2]
    · by_cases h2 : p.1 = k2
      · have h3 : ¬k2 = k := fun hh => h1 (h2.trans hh)
        simp [setAttrList, lookupAttr, h1, h2, h3]
      · simp [setAttrList, lookupAttr, h1, h2, ih]

theorem getAttr_setAttr (it : Item) (k k2 : String) (v : AttrVal) :
    getAttr (setAttr it k v) k2 = if k2 = k then some v else getAttr it k2 :=
  lookupAttr_setAttrList it.attrs k k2 v

theorem setAttr_pk (it : Item) (k : String) (v : AttrVal) :
    (setAttr it k v).pk = it.pk := rfl

theorem setAttr_sk (it : Item) (k : String) (v : AttrVal) :
    (setAttr it k v).sk = it.sk := rfl

theorem getItem_some_key {t : Table} {pk sk : String} {it : Item}
    (h : getItem t pk sk = some it) : it.pk = pk ∧ it.sk = sk := by
  induction t with
  | nil => simp [getItem] at h
  | cons x xs ih =>
    by_cases hx : sameKey x pk sk
    · rw [getItem, if_pos hx] at h
      cases h
      exact sameKey_iff.mp hx
    · rw [getItem, if_neg hx] at h
      exact ih h

theorem getItem_some_mem {t : Table} {pk sk : String} {it : Item}
    (h : getItem t pk sk = some it) : it ∈ t := by
  induction t with
  | nil => simp [getItem] at h
  | cons x xs ih =>
    by_cases hx : sameKey x pk sk
    · rw [getItem, if_pos hx] at h
      cases h
      exact List.mem_cons_self _ _
    · rw [getItem, if_neg hx] at h
      exact List.mem_cons_of_mem x (ih h)

theorem getItem_append (t1 t2 : Table) (pk sk : String) :
    getItem (t1 ++ t2) pk sk =
      match getItem t1 pk sk with
      | some x => some x
      | none => getItem t2 pk sk := by
  induction t1 with
  | nil => simp [getItem]
  | cons x xs ih =>
    by_cases hx : sameKey x pk sk
    · simp [getItem, hx]
    · simp [getItem, hx, ih]

theorem getItem_putItem (t : Table) (it : Item) (pk sk : String) :
    getItem (putItem t it) pk sk =
      if it.pk = pk ∧ it.sk = sk then some it else getItem t pk sk := by
  rw [putItem]
  induction t with
  | nil =>
    by_cases h : it.pk = pk ∧ it.sk = sk
    · simp [getItem, sameKey_true h, h]
    · simp [getItem, sameKey_false h, h]
  | cons x xs ih =>
    rw [List.filter_cons]
    by_cases hx : sameKey x it.pk it.sk
    · rw [hx]
      simp only [Bool.not_true, Bool.false_eq_true, if_false]
      rw [ih]
      by_cases h : it.pk = pk ∧ it.sk = sk
      · rw [if_pos h, if_pos h]
      · have hxk : sameKey x pk sk = false := by
          apply sameKey_false
          intro hc
          rcases sameKey_iff.mp hx with ⟨e1, e2⟩
          exact h (by rw [← e1, ← e2]; exact hc)
        rw [if_neg h, if_neg h]
        simp [getItem, hxk]
    · have hxb : (!sameKey x it.pk it.sk) = true := by
        cases hs : sameKey x it.pk it.sk
        · rfl
        · exact absurd hs hx
      rw [hxb]
      simp only [if_true]
      by_cases h2 : sameKey x pk sk
      · have hne : ¬(it.pk = pk ∧ it.sk = sk) := by
          intro hc
          rcases sameKey_iff.mp h2 with ⟨e1, e2⟩
          apply hx
          apply sameKey_true
          rw [e1, e2]
          exact ⟨hc.1.symm, hc.2.symm⟩
        rw [if_neg hne]
        simp [getItem, h2]
      · simp only [List.cons_append, getItem, h2, Bool.false_eq_true, if_false,
          List.append_eq]
        exact ih

theorem getItem_deleteItem (t : Table) (pk sk pk2 sk2 : String) :
    getItem (deleteItem t pk sk) pk2 sk2 =
      if pk = pk2 ∧ sk = sk2 then none else getItem t pk2 sk2 := by
  rw [deleteItem]
  induction t with
  | nil => simp [getItem]
  | cons x xs ih =>
    rw [List.filter_cons]
    by_cases hx : sameKey x pk sk
    · rw [hx]
      simp only [Bool.not_true, Bool.false_eq_true, if_false]
      rw [ih]
      by_cases h : pk = pk2 ∧ sk = sk2
      · rw [if_pos h, if_pos h]
      · have hxk : sameKey x pk2 sk2 = false := by
          apply sameKey_false
          intro hc
          rcases sameKey_iff.mp hx with ⟨e1, e2⟩
          exact h (by rw [← hc.1, ← hc.2, ← e1, ← e2]; exact ⟨rfl, rfl⟩)
        rw [if_neg h, if_neg h]
        simp [getItem, hxk]
    · have hxb : (!sameKey x pk sk) = true := by
        cases hs : sameKey x pk sk
        · rfl
        · exact absurd hs hx
      rw [hxb]
      simp only [if_true]
      by_cases h2 : sameKey x pk2 sk2
      · have hne : ¬(pk = pk2 ∧ sk = sk2) := by
          intro hc
          rcases sameKey_iff.mp h2 with ⟨e1, e2⟩
          apply hx
          apply sameKey_true
          rw [e1, e2, hc.1, hc.2]
          exact ⟨rfl, rfl⟩
        rw [if_neg hne]
        simp [getItem, h2]
      · simp only [getItem, h2, Bool.false_eq_true, if_false]
        rw [ih]

theorem getItem_map_upd (t : Table) (pk sk field : String) (v : AttrVal)
    (pk2 sk2 : String) :
    getItem (t.map (fun x => if sameKey x pk sk then setAttr x field v else x)) pk2 sk2 =
      (getItem t pk2 sk2).map (fun x => if sameKey x pk sk then setAttr x field v else x) := by
  induction t with
  | nil => rfl
  | cons x xs ih =>
    have hk : sameKey (if sameKey x pk sk then setAttr x field v else x) pk2 sk2
        = sameKey x pk2 sk2 := by
      by_cases h : sameKey x pk sk
      · rw [if_pos h]
        rfl
      · rw [if_neg h]
    simp only [List.map_cons, getItem, hk]
    by_cases h2 : sameKey x pk2 sk2
    · simp [h2]
    · simp only [h2, Bool.false_eq_true, if_false]
      exact ih

theorem getItem_updateItemSet (t : Table) (pk sk field : String) (v : AttrVal)
    (pk2 sk2 : String) :
    getItem (updateItemSet t pk sk field v) pk2 sk2 =
      if pk = pk2 ∧ sk = sk2 then
        some (match getItem t pk sk with
              | some it => setAttr it field v
              | none => ⟨pk, sk, [(field, v)]⟩)
      else getItem t pk2 sk2 := by
  rw [updateItemSet]
  cases hg : getItem t pk sk with
  | none =>
    rw [getItem_append]
    by_cases h : pk = pk2 ∧ sk = sk2
    · rw [if_pos h]
      have hg2 : getItem t pk2 sk2 = none := by rw [← h.1, ← h.2]; exact hg
      rw [hg2]
      have hk : sameKey (⟨pk, sk, [(field, v)]⟩ : Item) pk2 sk2 = true :=
        sameKey_true ⟨h.1, h.2⟩
      simp [getItem, hk]
    · rw [if_neg h]
      have hk : sameKey (⟨pk, sk, [(field, v)]⟩ : Item) pk2 sk2 = false :=
        sameKey_false h
      cases hg2 : getItem t pk2 sk2 with
      | some y => simp
      | none => simp [getItem, hk]
  | some it0 =>
    rw [getItem_map_upd]
    by_cases h : pk = pk2 ∧ sk = sk2
    · rw [if_pos h]
      have hg2 : getItem t pk2 sk2 = some it0 := by rw [← h.1, ← h.2]; exact hg
      rw [hg2]
      have hk : sameKey it0 pk sk = true := sameKey_true (getItem_some_key hg)
      simp [hk]
    · rw [if_neg h]
      cases hg2 : getItem t pk2 sk2 with
      | none => simp
      | some y =>
        have hyk := getItem_some_key hg2
        have hykf : sameKey y pk sk = false := by
          apply sameKey_false
          intro hc
          exact h ⟨by rw [← hc.1, hyk.1], by rw [← hc.2, hyk.2]⟩
        simp [hykf]

theorem updateItemAdd_some {t : Table} {pk sk field : String} {it : Item} {k : Int}
    (h1 : getItem t pk sk = some it) (h2 : getAttr it field = some (.n k)) (d : Int) :
    updateItemAdd t pk sk field d = some (updateItemSet t pk sk field (.n (k + d))) := by
  rw [updateItemAdd, h1]
  simp [h2]

/-! ### Lemmas about `query` -/

theorem mem_query {t : Table} {pk skPre : String} {x : Item} :
    x ∈ query t pk skPre ↔ x ∈ t ∧ x.pk = pk ∧ strStarts x.sk skPre = true := by
  rw [query, List.Perm.mem_iff (List.perm_insertionSort skRel _)]
  simp [List.mem_filter, Bool.and_eq_true, and_assoc]

theorem query_head_min {t : Table} {pk skPre : String} {w : Item}
    (h : (query t pk skPre).head? = some w) :
    (w ∈ t ∧ w.pk = pk ∧ strStarts w.sk skPre = true) ∧
      ∀ x ∈ t, x.pk = pk → strStarts x.sk skPre = true → skLe w.sk x.sk = true := by
  have hc : ∃ rest, query t pk skPre = w :: rest := by
    cases hq : query t pk skPre with
    | nil => rw [hq] at h; simp at h
    | cons a l =>
      rw [hq] at h
      simp only [List.head?_cons, Option.some_inj] at h
      exact ⟨l, by rw [h]⟩
  rcases hc with ⟨rest, hq⟩
  have hmem : w ∈ query t pk skPre := by rw [hq]; exact List.mem_cons_self _ _
  refine ⟨mem_query.mp hmem, ?_⟩
  intro x hx hpk hpre
  have hxq : x ∈ query t pk skPre := mem_query.mpr ⟨hx, hpk, hpre⟩
  rw [hq] at hxq
  rcases List.mem_cons.mp hxq with he | hxr
  · rw [he]
    exact skLe_refl _
  · haveI : IsTotal Item skRel := ⟨fun a b => charListLe_total a.sk.data b.sk.data⟩
    haveI : IsTrans Item skRel := ⟨fun _ _ _ hx hy => charListLe_trans hx hy⟩
    have hsorted : List.Sorted skRel (query t pk skPre) :=
      List.sorted_insertionSort skRel _
    rw [hq] at hsorted
    exact List.rel_of_sorted_cons hsorted x hxr

theorem query_updateItemSet_ne (t : Table) (pk sk field : String) (v : AttrVal)
    (pk2 skPre : String) (h : ¬(pk = pk2 ∧ strStarts sk skPre = true)) :
    query (updateItemSet t pk sk field v) pk2 skPre = query t pk2 skPre := by
  rw [updateItemSet]
  cases hg : getItem t pk sk with
  | none =>
    rw [query, query, List.filter_append]
    have hp : ((⟨pk, sk, [(field, v)]⟩ : Item).pk == pk2 &&
        strStarts (⟨pk, sk, [(field, v)]⟩ : Item).sk skPre) = false := by
      by_cases hq : pk = pk2
      · have hs : strStarts sk skPre = false := by
          cases hs2 : strStarts sk skPre
          · rfl
          · exact absurd ⟨hq, hs2⟩ h
        simp [hq, hs]
      · simp [hq]
    simp only [List.filter_cons, hp, Bool.false_eq_true, if_false, List.filter_nil,
      List.append_nil]
  | some it0 =>
    rw [query, query]
    congr 1
    rw [List.filter_map]
    have hpg : ∀ y ∈ t,
        ((fun x : Item => x.pk == pk2 && strStarts x.sk skPre) ∘
          (fun x => if sameKey x pk sk then setAttr x field v else x)) y =
        (fun x : Item => x.pk == pk2 && strStarts x.sk skPre) y := by
      intro y _
      by_cases hy : sameKey y pk sk
      · simp only [Function.comp, hy, if_true]
        rfl
      · simp only [Function.comp, hy, Bool.false_eq_true, if_false]
    rw [List.filter_congr hpg]
    have hid : ∀ y ∈ t.filter (fun x : Item => x.pk == pk2 && strStarts x.sk skPre),
        (fun x => if sameKey x pk sk then setAttr x field v else x) y = id y := by
      intro y hy
      rcases List.mem_filter.mp hy with ⟨_, hp⟩
      rw [Bool.and_eq_true] at hp
      rcases hp with ⟨hp1, hp2⟩
      have hyk : sameKey y pk sk = false := by
        apply sameKey_false
        intro hc
        apply h
        constructor
        · rw [← hc.1]
          exact beq_iff_eq.mp hp1
        · rw [← hc.2]
          exact hp2
      simp [hyk]
    rw [List.map_congr_left hid, List.map_id]

/-! ### Key disequalities used by the frame arguments -/

theorem user_pk_ne_event_pk (u e : String) : "USER#" ++ u ≠ "EVENT#" ++ e :=
  append_ne_append u e (by decide) (by decide) (by decide)

theorem event_pk_ne_user_pk (e u : String) : "EVENT#" ++ e ≠ "USER#" ++ u :=
  append_ne_append e u (by decide) (by decide) (by decide)

theorem reg_sk_ne_metadata (u : String) : "REGISTRATION#" ++ u ≠ "METADATA" :=
  append_ne u (by decide) (by decide)

theorem metadata_ne_event_sk (e : String) : "METADATA" ≠ "EVENT#" ++ e :=
  ne_append e (by decide) (by decide)

theorem profile_ne_event_sk (e : String) : "PROFILE" ≠ "EVENT#" ++ e :=
  ne_append e (by decide) (by decide)

theorem event_sk_ne_reg_sk (e u : String) : "EVENT#" ++ e ≠ "REGISTRATION#" ++ u :=
  append_ne_append e u (by decide) (by decide) (by decide)

theorem waitlist_sk_assoc (ts uid : String) :
    ("WAITLIST#" ++ ts ++ "#" ++ uid : String) =
      "WAITLIST#" ++ (ts ++ ("#" ++ uid)) := by
  rw [String.append_assoc, String.append_assoc]

theorem strStarts_waitlist_sk (ts uid : String) :
    strStarts ("WAITLIST#" ++ ts ++ "#" ++ uid) "WAITLIST#" = true := by
  rw [waitlist_sk_assoc]
  exact strStarts_append _ _

theorem waitlist_sk_ne_metadata {s : String}
    (h : strStarts s "WAITLIST#" = true) : s ≠ "METADATA" := by
  apply ne_of_data_head_ne
  rw [strStarts_data_head h (by decide)]
  decide

theorem waitlist_sk_ne_reg_sk {s : String} (u : String)
    (h : strStarts s "WAITLIST#" = true) : s ≠ "REGISTRATION#" ++ u := by
  apply ne_of_data_head_ne
  rw [strStarts_data_head h (by decide), append_data_head u (by decide)]
  decide

theorem waitlist_sk_ne_event_sk {s : String} (e : String)
    (h : strStarts s "WAITLIST#" = true) : s ≠ "EVENT#" ++ e := by
  apply ne_of_data_head_ne
  rw [strStarts_data_head h (by decide), append_data_head e (by decide)]
  decide

theorem user_pk_inj {u u2 : String} (h : "USER#" ++ u = "USER#" ++ u2) : u = u2 :=
  append_left_cancel h

theorem event_pk_inj {e e2 : String} (h : "EVENT#" ++ e = "EVENT#" ++ e2) : e = e2 :=
  append_left_cancel h

theorem reg_sk_inj {u u2 : String}
    (h : "REGISTRATION#" ++ u = "REGISTRATION#" ++ u2) : u = u2 :=
  append_left_cancel h

/-! ### Extraction and op-level lemmas -/

theorem eventOfItem_fields {it : Item} {ev : DomainEvent}
    (h : eventOfItem it = some ev) :
    asNum (getAttr it "capacity") = some ev.capacity ∧
    numOrZero (getAttr it "currentRegistrations") = some ev.current_registrations ∧
    boolOrFalse (getAttr it "waitlistEnabled") = some ev.waitlist_enabled := by
  unfold eventOfItem at h
  cases h1 : asStr (getAttr it "eventId") with
  | none => rw [h1, Option.none_bind] at h; exact Option.noConfusion h
  | some eid =>
  rw [h1] at h; simp only [Option.some_bind] at h
  cases h2 : asStr (getAttr it "title") with
  | none => rw [h2, Option.none_bind] at h; exact Option.noConfusion h
  | some ti =>
  rw [h2] at h; simp only [Option.some_bind] at h
  cases h3 : asStr (getAttr it "description") with
  | none => rw [h3, Option.none_bind] at h; exact Option.noConfusion h
  | some de =>
  rw [h3] at h; simp only [Option.some_bind] at h
  cases h4 : asStr (getAttr it "date") with
  | none => rw [h4, Option.none_bind] at h; exact Option.noConfusion h
  | some da =>
  rw [h4] at h; simp only [Option.some_bind] at h
  cases h5 : asStr (getAttr it "location") with
  | none => rw [h5, Option.none_bind] at h; exact Option.noConfusion h
  | some lo =>
  rw [h5] at h; simp only [Option.some_bind] at h
  cases h6 : asNum (getAttr it "capacity") with
  | none => rw [h6, Option.none_bind] at h; exact Option.noConfusion h
  | some cap =>
  rw [h6] at h; simp only [Option.some_bind] at h
  cases h7 : asStr (getAttr it "organizer") with
  | none => rw [h7, Option.none_bind] at h; exact Option.noConfusion h
  | some org =>
  rw [h7] at h; simp only [Option.some_bind] at h
  cases h8 : asStr (getAttr it "status") with
  | none => rw [h8, Option.none_bind] at h; exact Option.noConfusion h
  | some st =>
  rw [h8] at h; simp only [Option.some_bind] at h
  cases h9 : numOrZero (getAttr it "currentRegistrations") with
  | none => rw [h9, Option.none_bind] at h; exact Option.noConfusion h
  | some cr =>
  rw [h9] at h; simp only [Option.some_bind] at h
  cases h10 : boolOrFalse (getAttr it "waitlistEnabled") with
  | none => rw [h10, Option.none_bind] at h; exact Option.noConfusion h
  | some wl =>
  rw [h10] at h; simp only [Option.some_bind] at h
  cases h11 : asStr (getAttr it "createdAt") with
  | none => rw [h11, Option.none_bind] at h; exact Option.noConfusion h
  | some ca =>
  rw [h11] at h; simp only [Option.some_bind] at h
  cases h12 : asStr (getAttr it "updatedAt") with
  | none => rw [h12] at h; exact Option.noConfusion h
  | some ua =>
  rw [h12] at h
  have h13 : some (DomainEvent.mk eid ti de da lo cap org st cr wl ca ua) = some ev := h
  cases h13
  exact ⟨rfl, rfl, rfl⟩

theorem increment_ok {t : Table} {eid : String} {it : Item} {k : Int}
    (hg : getItem t ("EVENT#" ++ eid) "METADATA" = some it)
    (hk : getAttr it "currentRegistrations" = some (.n k)) :
    increment_registrations t eid =
      .ok (updateItemSet t ("EVENT#" ++ eid) "METADATA" "currentRegistrations"
        (.n (k + 1))) := by
  rw [increment_registrations, updateItemAdd_some hg hk 1]

theorem decrement_ok {t : Table} {eid : String} {it : Item} {k : Int}
    (hg : getItem t ("EVENT#" ++ eid) "METADATA" = some it)
    (hk : getAttr it "currentRegistrations" = some (.n k)) :
    decrement_registrations t eid =
      .ok (updateItemSet t ("EVENT#" ++ eid) "METADATA" "currentRegistrations"
        (.n (k + (-1)))) := by
  rw [decrement_registrations, updateItemAdd_some hg hk (-1)]

theorem getItem_create_registration_byUser (t : Table) (r : DomainRegistration)
    (u e : String) :
    getItem (create_registration t r) ("USER#" ++ u) ("EVENT#" ++ e) =
      if r.user_id = u ∧ r.event_id = e then some (regByUserItem r)
      else getItem t ("USER#" ++ u) ("EVENT#" ++ e) := by
  rw [create_registration, getItem_putItem]
  rw [if_neg (by
    rintro ⟨h1, _⟩
    exact event_pk_ne_user_pk r.event_id u h1)]
  rw [getItem_putItem]
  by_cases h : r.user_id = u ∧ r.event_id = e
  · rw [if_pos h, if_pos (by
      exact ⟨congrArg ("USER#" ++ ·) h.1, congrArg ("EVENT#" ++ ·) h.2⟩)]
  · rw [if_neg h, if_neg (by
      rintro ⟨h1, h2⟩
      exact h ⟨user_pk_inj h1, event_pk_inj h2⟩)]

theorem getItem_create_registration_byEvent (t : Table) (r : DomainRegistration)
    (u e : String) :
    getItem (create_registration t r) ("EVENT#" ++ e) ("REGISTRATION#" ++ u) =
      if r.user_id = u ∧ r.event_id = e then some (regByEventItem r)
      else getItem t ("EVENT#" ++ e) ("REGISTRATION#" ++ u) := by
  rw [create_registration, getItem_putItem]
  by_cases h : r.user_id = u ∧ r.event_id = e
  · rw [if_pos (by
      exact ⟨congrArg ("EVENT#" ++ ·) h.2, congrArg ("REGISTRATION#" ++ ·) h.1⟩),
      if_pos h]
  · rw [if_neg (by
      rintro ⟨h1, h2⟩
      exact h ⟨reg_sk_inj h2, event_pk_inj h1⟩)]
    rw [if_neg h, getItem_putItem]
    rw [if_neg (by
      rintro ⟨h1, _⟩
      exact user_pk_ne_event_pk r.user_id e h1)]

theorem getItem_create_registration_frame (t : Table) (r : DomainRegistration)
    (pk sk : String)
    (h1 : ¬("USER#" ++ r.user_id = pk ∧ "EVENT#" ++ r.event_id = sk))
    (h2 : ¬("EVENT#" ++ r.event_id = pk ∧ "REGISTRATION#" ++ r.user_id = sk)) :
    getItem (create_registration t r) pk sk = getItem t pk sk := by
  rw [create_registration, getItem_putItem]
  rw [if_neg (by
    intro hc
    exact h2 hc)]
  rw [getItem_putItem]
  rw [if_neg (by
    intro hc
    exact h1 hc)]

theorem getItem_delete_registration_byUser (t : Table) (uid eid : String) :
    getItem (delete_registration t uid eid) ("USER#" ++ uid) ("EVENT#" ++ eid) =
      none := by
  rw [delete_registration, getItem_deleteItem]
  rw [if_neg (by
    rintro ⟨h1, _⟩
    exact event_pk_ne_user_pk eid uid h1)]
  rw [getItem_deleteItem, if_pos ⟨rfl, rfl⟩]

theorem getItem_delete_registration_byEvent (t : Table) (uid eid : String) :
    getItem (delete_registration t uid eid) ("EVENT#" ++ eid)
      ("REGISTRATION#" ++ uid) = none := by
  rw [delete_registration, getItem_deleteItem, if_pos ⟨rfl, rfl⟩]

theorem getItem_delete_registration_frame (t : Table) (uid eid pk sk : String)
    (h1 : ¬("USER#" ++ uid = pk ∧ "EVENT#" ++ eid = sk))
    (h2 : ¬("EVENT#" ++ eid = pk ∧ "REGISTRATION#" ++ uid = sk)) :
    getItem (delete_registration t uid eid) pk sk = getItem t pk sk := by
  rw [delete_registration, getItem_deleteItem, if_neg h2, getItem_deleteItem,
    if_neg h1]

theorem getItem_add_to_waitlist_self (t : Table) (uid eid ts : String) :
    getItem (add_to_waitlist t uid eid ts) ("EVENT#" ++ eid)
      ("WAITLIST#" ++ ts ++ "#" ++ uid) =
      some ⟨"EVENT#" ++ eid, "WAITLIST#" ++ ts ++ "#" ++ uid,
        [("userId", .s uid), ("eventId", .s eid), ("addedAt", .s ts)]⟩ := by
  rw [add_to_waitlist, getItem_putItem, if_pos ⟨rfl, rfl⟩]

theorem getItem_add_to_waitlist_frame (t : Table) (uid eid ts pk sk : String)
    (h : ¬("EVENT#" ++ eid = pk ∧ "WAITLIST#" ++ ts ++ "#" ++ uid = sk)) :
    getItem (add_to_waitlist t uid eid ts) pk sk = getItem t pk sk := by
  rw [add_to_waitlist, getItem_putItem]
  rw [if_neg (by
    intro hc
    exact h hc)]

theorem statusAt_urs_byUser (t : Table) (uid eid st : String) :
    statusAt (update_registration_status t uid eid st) ("USER#" ++ uid)
      ("EVENT#" ++ eid) = some (.s st) := by
  rw [statusAt, fieldAt, update_registration_status, getItem_updateItemSet]
  rw [if_neg (by
    rintro ⟨h1, _⟩
    exact event_pk_ne_user_pk eid uid h1)]
  rw [getItem_updateItemSet, if_pos ⟨rfl, rfl⟩]
  cases hg : getItem t ("USER#" ++ uid) ("EVENT#" ++ eid) with
  | some it => simp [getAttr_setAttr]
  | none => simp [getAttr, lookupAttr]

theorem statusAt_urs_byEvent (t : Table) (uid eid st : String) :
    statusAt (update_registration_status t uid eid st) ("EVENT#" ++ eid)
      ("REGISTRATION#" ++ uid) = some (.s st) := by
  rw [statusAt, fieldAt, update_registration_status, getItem_updateItemSet,
    if_pos ⟨rfl, rfl⟩]
  cases hg : getItem (updateItemSet t ("USER#" ++ uid) ("EVENT#" ++ eid)
      "registrationStatus" (.s st)) ("EVENT#" ++ eid) ("REGISTRATION#" ++ uid) with
  | some it => simp [getAttr_setAttr]
  | none => simp [getAttr, lookupAttr]

theorem isSome_urs_byUser (t : Table) (uid eid st : String) :
    (getItem (update_registration_status t uid eid st) ("USER#" ++ uid)
      ("EVENT#" ++ eid)).isSome = true := by
  rw [update_registration_status, getItem_updateItemSet]
  rw [if_neg (by
    rintro ⟨h1, _⟩
    exact event_pk_ne_user_pk eid uid h1)]
  rw [getItem_updateItemSet, if_pos ⟨rfl, rfl⟩]
  rfl

theorem isSome_urs_byEvent (t : Table) (uid eid st : String) :
    (getItem (update_registration_status t uid eid st) ("EVENT#" ++ eid)
      ("REGISTRATION#" ++ uid)).isSome = true := by
  rw [update_registration_status, getItem_updateItemSet, if_pos ⟨rfl, rfl⟩]
  rfl

theorem getItem_urs_frame (t : Table) (uid eid st pk sk : String)
    (h1 : ¬("USER#" ++ uid = pk ∧ "EVENT#" ++ eid = sk))
    (h2 : ¬("EVENT#" ++ eid = pk ∧ "REGISTRATION#" ++ uid = sk)) :
    getItem (update_registration_status t uid eid st) pk sk = getItem t pk sk := by
  rw [update_registration_status, getItem_updateItemSet, if_neg h2,
    getItem_updateItemSet, if_neg h1]

theorem bnot_eq_true_of_ne {b : Bool} (h : ¬b = true) : (!b) = true := by
  cases b
  · rfl
  · exact absurd rfl h

theorem keyCount_putItem (t : Table) (it : Item) :
    keyCount (putItem t it) it.pk it.sk = 1 := by
  rw [keyCount, putItem, List.filter_append]
  have h0 : (t.filter (fun x => !sameKey x it.pk it.sk)).filter
      (fun x => sameKey x it.pk it.sk) = [] := by
    induction t with
    | nil => rfl
    | cons x xs ih =>
      rw [List.filter_cons]
      by_cases hx : sameKey x it.pk it.sk
      · rw [hx]
        simp only [Bool.not_true, Bool.false_eq_true, if_false]
        exact ih
      · rw [bnot_eq_true_of_ne hx, if_pos rfl, List.filter_cons]
        have hxf : sameKey x it.pk it.sk = false := by
          cases hs : sameKey x it.pk it.sk
          · rfl
          · exact absurd hs hx
        rw [hxf]
        simp only [Bool.false_eq_true, if_false]
        exact ih
  rw [h0]
  have h1 : sameKey it it.pk it.sk = true := sameKey_true ⟨rfl, rfl⟩
  simp [h1]

/-! ### Claim theorems -/

/-- C1 (refuted by the code): the spec demands that after every completed
registration-engine call each event's `currentRegistrations` equals the
number of registration records with status `registered`.  On
`counterDriftTrace` the final `unregister B` completes without error, yet
leaves the counter at 1 with zero `registered` records: the orphaned
waitlist entries left by unregistering waitlisted users make the counter
drift. -/
theorem C1_counter_drifts_from_registered_count :
    (unregister_user (runOps [] counterDriftTrace) "B" "E1").2 = none ∧
    counterAttr (unregister_user (runOps [] counterDriftTrace) "B" "E1").1 "E1" =
      some (.n 1) ∧
    registeredCount (unregister_user (runOps [] counterDriftTrace) "B" "E1").1
      "E1" = 0 := by
  decide

/-- C3 (refuted by the code): unregistering the waitlisted user B completes,
deletes both mirror records, leaves the counter unchanged at 1 and promotes
nobody (A stays the only registered user) — but the waitlist entry
`WAITLIST#T2#B` is NOT removed, contradicting the claim that the user's
waitlist entry is deleted and that no entry outlives its waitlisted user. -/
theorem C3_waitlist_entry_left_behind :
    (unregister_user (runOps [] unregisterWaitlistedTrace) "B" "E1").2 = none ∧
    getItem (unregister_user (runOps [] unregisterWaitlistedTrace) "B" "E1").1
      "EVENT#E1" "WAITLIST#T2#B" =
      some ⟨"EVENT#E1", "WAITLIST#T2#B",
        [("userId", .s "B"), ("eventId", .s "E1"), ("addedAt", .s "T2")]⟩ ∧
    getItem (unregister_user (runOps [] unregisterWaitlistedTrace) "B" "E1").1
      "USER#B" "EVENT#E1" = none ∧
    getItem (unregister_user (runOps [] unregisterWaitlistedTrace) "B" "E1").1
      "EVENT#E1" "REGISTRATION#B" = none ∧
    counterAttr (unregister_user (runOps [] unregisterWaitlistedTrace) "B" "E1").1
      "E1" = some (.n 1) ∧
    counterAttr (runOps [] unregisterWaitlistedTrace) "E1" = some (.n 1) ∧
    statusAt (unregister_user (runOps [] unregisterWaitlistedTrace) "B" "E1").1
      "USER#A" "EVENT#E1" = some (.s "registered") := by
  decide

/-- C8 (counterexample): creating event E1 a second time is not rejected —
the unconditional `put_item` in `EventRepository.create` overwrites the
stored event, so the stored title is the second call's `second`, not the
first call's `first`. -/
theorem C8_duplicate_create_overwrites :
    fieldAt c8FirstTable "EVENT#E1" "METADATA" "title" = some (.s "first") ∧
    fieldAt c8SecondTable "EVENT#E1" "METADATA" "title" = some (.s "second") ∧
    fieldAt c8SecondTable "EVENT#E1" "METADATA" "capacity" = some (.n 7) := by
  decide

/-- C8 (amended): `createEvent` never rejects a duplicate id; it overwrites.
After any create call the key `EVENT#id / METADATA` holds exactly one item,
whose fields are those of the most recent create (counter reset to 0), and
no other item of the table is touched. -/
theorem C8_amended_create_overwrites (t : Table) (eid ti de da lo : String)
    (cap : Int) (org st : String) (wl : Bool) (ts : String) :
    getItem (create_event t eid ti de da lo cap org st wl ts).1
        ("EVENT#" ++ eid) "METADATA" =
      some (eventItem ⟨eid, ti, de, da, lo, cap, org, st, 0, wl, ts, ts⟩) ∧
    keyCount (create_event t eid ti de da lo cap org st wl ts).1
        ("EVENT#" ++ eid) "METADATA" = 1 ∧
    ∀ pk sk, ¬(("EVENT#" ++ eid : String) = pk ∧ ("METADATA" : String) = sk) →
      getItem (create_event t eid ti de da lo cap org st wl ts).1 pk sk =
        getItem t pk sk := by
  refine ⟨?_, ?_, ?_⟩
  · rw [create_event, event_repo_create, getItem_putItem, if_pos ⟨rfl, rfl⟩]
  · rw [create_event, event_repo_create]
    exact keyCount_putItem t _
  · intro pk sk h
    rw [create_event, event_repo_create, getItem_putItem]
    rw [if_neg (by
      intro hc
      exact h hc)]

/-- C8 (witness for the amended claim): at a concrete instance the create
call stores the new item, keeps the key unique, and leaves an unrelated
key untouched. -/
theorem C8_amended_create_overwrites_witness :
    getItem (create_event c8FirstTable "E1" "second" "d2" "2025-01-02" "Annex" 7
        "Org2" "scheduled" false "T1").1 ("EVENT#" ++ "E1") "METADATA" =
      some (eventItem ⟨"E1", "second", "d2", "2025-01-02", "Annex", 7, "Org2",
        "scheduled", 0, false, "T1", "T1"⟩) ∧
    keyCount (create_event c8FirstTable "E1" "second" "d2" "2025-01-02" "Annex" 7
        "Org2" "scheduled" false "T1").1 ("EVENT#" ++ "E1") "METADATA" = 1 ∧
    getItem (create_event c8FirstTable "E1" "second" "d2" "2025-01-02" "Annex" 7
        "Org2" "scheduled" false "T1").1 "USER#A" "PROFILE" =
      getItem c8FirstTable "USER#A" "PROFILE" := by
  refine ⟨(C8_amended_create_overwrites c8FirstTable "E1" "second" "d2"
    "2025-01-02" "Annex" 7 "Org2" "scheduled" false "T1").1,
    (C8_amended_create_overwrites c8FirstTable "E1" "second" "d2"
    "2025-01-02" "Annex" 7 "Org2" "scheduled" false "T1").2.1,
    (C8_amended_create_overwrites c8FirstTable "E1" "second" "d2"
    "2025-01-02" "Annex" 7 "Org2" "scheduled" false "T1").2.2 "USER#A" "PROFILE"
    (by decide)⟩

/-- C2 (counterexample): after `capacityLowerTrace` — two registrations into
a capacity-2 event followed by an `updateEvent` lowering the capacity to 1 —
the stored counter is 2 while the stored capacity is 1, so
`currentRegistrations` exceeds `capacity` and the invariant check fails. -/
theorem C2_capacity_lowered_below_counter :
    counterAttr (runOps [] capacityLowerTrace) "E1" = some (.n 2) ∧
    fieldAt (runOps [] capacityLowerTrace) "EVENT#E1" "METADATA" "capacity" =
      some (.n 1) ∧
    ctrLeCapAt (runOps [] capacityLowerTrace) "E1" = false := by
  decide

/-- C9: creating a user whose id already has a stored profile fails with
AlreadyExists and leaves the table — in particular the stored `name` and
`createdAt` — unchanged. -/
theorem C9_duplicate_user_create_rejected (t : Table) (uid nm ts : String)
    (h : (getItem t ("USER#" ++ uid) "PROFILE").isSome = true) :
    create_user t uid nm ts = (t, .error .alreadyExists) ∧
    fieldAt (create_user t uid nm ts).1 ("USER#" ++ uid) "PROFILE" "name" =
      fieldAt t ("USER#" ++ uid) "PROFILE" "name" ∧
    fieldAt (create_user t uid nm ts).1 ("USER#" ++ uid) "PROFILE" "createdAt" =
      fieldAt t ("USER#" ++ uid) "PROFILE" "createdAt" := by
  cases hx : getItem t ("USER#" ++ uid) "PROFILE" with
  | none => rw [hx] at h; simp at h
  | some it =>
    have he : create_user t uid nm ts = (t, .error .alreadyExists) := by
      rw [create_user, user_repo_create, hx]
    exact ⟨he, by rw [he], by rw [he]⟩

/-- C9 (witness): a second create of user u1 fails and changes nothing. -/
theorem C9_duplicate_user_create_rejected_witness :
    create_user (create_user ([] : Table) "u1" "Alice" "T0").1 "u1" "Bob" "T1" =
      ((create_user ([] : Table) "u1" "Alice" "T0").1, .error .alreadyExists) :=
  (C9_duplicate_user_create_rejected (create_user ([] : Table) "u1" "Alice" "T0").1
    "u1" "Bob" "T1" (by decide)).1

/-! ### Branch equations for the service calls -/

theorem reg_eq_user_fault {t : Table} {uid : String} (eid ts : String) {e : Err}
    (h1 : user_get_by_id t uid = .error e) :
    register_user t uid eid ts = (t, .error e) := by
  rw [register_user, h1]

theorem reg_eq_user_absent {t : Table} {uid : String} (eid ts : String)
    (h1 : user_get_by_id t uid = .ok none) :
    register_user t uid eid ts = (t, .error .notFound) := by
  rw [register_user, h1]

theorem reg_eq_event_fault {t : Table} {uid eid : String} (ts : String)
    {du : DomainUser} {e : Err}
    (h1 : user_get_by_id t uid = .ok (some du))
    (h2 : event_get_by_id t eid = .error e) :
    register_user t uid eid ts = (t, .error e) := by
  rw [register_user, h1, h2]

theorem reg_eq_event_absent {t : Table} {uid eid : String} (ts : String)
    {du : DomainUser}
    (h1 : user_get_by_id t uid = .ok (some du))
    (h2 : event_get_by_id t eid = .ok none) :
    register_user t uid eid ts = (t, .error .notFound) := by
  rw [register_user, h1, h2]

theorem reg_eq_regread_fault {t : Table} {uid eid : String} (ts : String)
    {du : DomainUser} {ev : DomainEvent} {e : Err}
    (h1 : user_get_by_id t uid = .ok (some du))
    (h2 : event_get_by_id t eid = .ok (some ev))
    (h3 : get_registration t uid eid = .error e) :
    register_user t uid eid ts = (t, .error e) := by
  rw [register_user, h1, h2, h3]

theorem reg_eq_already {t : Table} {uid eid : String} (ts : String)
    {du : DomainUser} {ev : DomainEvent} {r : DomainRegistration}
    (h1 : user_get_by_id t uid = .ok (some du))
    (h2 : event_get_by_id t eid = .ok (some ev))
    (h3 : get_registration t uid eid = .ok (some r)) :
    register_user t uid eid ts = (t, .error .alreadyExists) := by
  rw [register_user, h1, h2, h3]

theorem reg_eq_cap {t : Table} {uid eid : String} (ts : String)
    {du : DomainUser} {ev : DomainEvent}
    (h1 : user_get_by_id t uid = .ok (some du))
    (h2 : event_get_by_id t eid = .ok (some ev))
    (h3 : get_registration t uid eid = .ok none)
    (h4 : ev.current_registrations ≥ ev.capacity)
    (h5 : ev.waitlist_enabled = false) :
    register_user t uid eid ts = (t, .error .capacityExceeded) := by
  rw [register_user, h1, h2, h3]
  simp only [ge_iff_le, if_pos h4, if_pos h5]

theorem reg_eq_waitlist {t : Table} {uid eid : String} (ts : String)
    {du : DomainUser} {ev : DomainEvent}
    (h1 : user_get_by_id t uid = .ok (some du))
    (h2 : event_get_by_id t eid = .ok (some ev))
    (h3 : get_registration t uid eid = .ok none)
    (h4 : ev.current_registrations ≥ ev.capacity)
    (h5 : ¬ev.waitlist_enabled = false) :
    register_user t uid eid ts =
      (create_registration (add_to_waitlist t uid eid ts)
        ⟨uid, eid, "waitlisted", ts⟩, .ok ⟨uid, eid, "waitlisted", ts⟩) := by
  rw [register_user, h1, h2, h3]
  simp only [ge_iff_le, if_pos h4, if_neg h5]

theorem reg_eq_incr_fail {t : Table} {uid eid : String} (ts : String)
    {du : DomainUser} {ev : DomainEvent} {e : Err}
    (h1 : user_get_by_id t uid = .ok (some du))
    (h2 : event_get_by_id t eid = .ok (some ev))
    (h3 : get_registration t uid eid = .ok none)
    (h4 : ¬ev.current_registrations ≥ ev.capacity)
    (h6 : increment_registrations t eid = .error e) :
    register_user t uid eid ts = (t, .error e) := by
  rw [register_user, h1, h2, h3]
  simp only [ge_iff_le, if_neg h4, h6]

theorem reg_eq_incr_ok {t : Table} {uid eid : String} (ts : String)
    {du : DomainUser} {ev : DomainEvent} {t1 : Table}
    (h1 : user_get_by_id t uid = .ok (some du))
    (h2 : event_get_by_id t eid = .ok (some ev))
    (h3 : get_registration t uid eid = .ok none)
    (h4 : ¬ev.current_registrations ≥ ev.capacity)
    (h6 : increment_registrations t eid = .ok t1) :
    register_user t uid eid ts =
      (create_registration t1 ⟨uid, eid, "registered", ts⟩,
        .ok ⟨uid, eid, "registered", ts⟩) := by
  rw [register_user, h1, h2, h3]
  simp only [ge_iff_le, if_neg h4, h6]

theorem unreg_eq_read_fault {t : Table} {uid eid : String} {e : Err}
    (h1 : get_registration t uid eid = .error e) :
    unregister_user t uid eid = (t, some e) := by
  rw [unregister_user, h1]

theorem unreg_eq_absent {t : Table} {uid eid : String}
    (h1 : get_registration t uid eid = .ok none) :
    unregister_user t uid eid = (t, some .notFound) := by
  rw [unregister_user, h1]

theorem unreg_eq_waitlisted {t : Table} {uid eid : String}
    {reg : DomainRegistration}
    (h1 : get_registration t uid eid = .ok (some reg))
    (h2 : ¬reg.registration_status = "registered") :
    unregister_user t uid eid = (delete_registration t uid eid, none) := by
  rw [unregister_user, h1]
  simp only [if_neg h2]

theorem unreg_eq_dec_fail {t : Table} {uid eid : String}
    {reg : DomainRegistration} {e : Err}
    (h1 : get_registration t uid eid = .ok (some reg))
    (h2 : reg.registration_status = "registered")
    (h3 : decrement_registrations t eid = .error e) :
    unregister_user t uid eid = (t, some e) := by
  rw [unregister_user, h1]
  simp only [if_pos h2, h3]

theorem unreg_eq_no_waitlist {t : Table} {uid eid : String}
    {reg : DomainRegistration} {t1 : Table}
    (h1 : get_registration t uid eid = .ok (some reg))
    (h2 : reg.registration_status = "registered")
    (h3 : decrement_registrations t eid = .ok t1)
    (h4 : get_first_waitlisted t1 eid = none) :
    unregister_user t uid eid = (delete_registration t1 uid eid, none) := by
  rw [unregister_user, h1]
  simp only [if_pos h2, h3, h4]

theorem unreg_eq_promote {t : Table} {uid eid : String}
    {reg : DomainRegistration} {t1 : Table} {w : Item} {wuid : String} {t4 : Table}
    (h1 : get_registration t uid eid = .ok (some reg))
    (h2 : reg.registration_status = "registered")
    (h3 : decrement_registrations t eid = .ok t1)
    (h4 : get_first_waitlisted t1 eid = some w)
    (h5 : getAttr w "userId" = some (.s wuid))
    (h6 : increment_registrations
      (remove_from_waitlist (update_registration_status t1 wuid eid "registered")
        w.pk w.sk) eid = .ok t4) :
    unregister_user t uid eid = (delete_registration t4 uid eid, none) := by
  rw [unregister_user, h1]
  simp only [if_pos h2, h3, h4, h5, h6]

theorem unreg_eq_promote_incr_fail {t : Table} {uid eid : String}
    {reg : DomainRegistration} {t1 : Table} {w : Item} {wuid : String} {e : Err}
    (h1 : get_registration t uid eid = .ok (some reg))
    (h2 : reg.registration_status = "registered")
    (h3 : decrement_registrations t eid = .ok t1)
    (h4 : get_first_waitlisted t1 eid = some w)
    (h5 : getAttr w "userId" = some (.s wuid))
    (h6 : increment_registrations
      (remove_from_waitlist (update_registration_status t1 wuid eid "registered")
        w.pk w.sk) eid = .error e) :
    unregister_user t uid eid =
      (remove_from_waitlist (update_registration_status t1 wuid eid "registered")
        w.pk w.sk, some e) := by
  rw [unregister_user, h1]
  simp only [if_pos h2, h3, h4, h5, h6]

theorem unreg_eq_wuid_none {t : Table} {uid eid : String}
    {reg : DomainRegistration} {t1 : Table} {w : Item}
    (h1 : get_registration t uid eid = .ok (some reg))
    (h2 : reg.registration_status = "registered")
    (h3 : decrement_registrations t eid = .ok t1)
    (h4 : get_first_waitlisted t1 eid = some w)
    (h5 : getAttr w "userId" = none) :
    unregister_user t uid eid = (t1, some .storeFault) := by
  rw [unregister_user, h1]
  simp only [if_pos h2, h3, h4, h5]

theorem unreg_eq_wuid_num {t : Table} {uid eid : String}
    {reg : DomainRegistration} {t1 : Table} {w : Item} {x : Int}
    (h1 : get_registration t uid eid = .ok (some reg))
    (h2 : reg.registration_status = "registered")
    (h3 : decrement_registrations t eid = .ok t1)
    (h4 : get_first_waitlisted t1 eid = some w)
    (h5 : getAttr w "userId" = some (.n x)) :
    unregister_user t uid eid = (t1, some .storeFault) := by
  rw [unregister_user, h1]
  simp only [if_pos h2, h3, h4, h5]

theorem unreg_eq_wuid_bool {t : Table} {uid eid : String}
    {reg : DomainRegistration} {t1 : Table} {w : Item} {x : Bool}
    (h1 : get_registration t uid eid = .ok (some reg))
    (h2 : reg.registration_status = "registered")
    (h3 : decrement_registrations t eid = .ok t1)
    (h4 : get_first_waitlisted t1 eid = some w)
    (h5 : getAttr w "userId" = some (.b x)) :
    unregister_user t uid eid = (t1, some .storeFault) := by
  rw [unregister_user, h1]
  simp only [if_pos h2, h3, h4, h5]

theorem reg_sk_ne_waitlist_sk (u ts uid : String) :
    "REGISTRATION#" ++ u ≠ "WAITLIST#" ++ ts ++ "#" ++ uid := by
  rw [waitlist_sk_assoc]
  exact append_ne_append _ _ (by decide) (by decide) (by decide)

/-- C5: registering into a full event with the waitlist enabled succeeds
with status `waitlisted`, writes the waitlist entry keyed by timestamp and
user id, writes both mirror records with status `waitlisted`, and leaves
the event's METADATA item — in particular its counter — untouched. -/
theorem C5_register_full_waitlist_enabled (t : Table) (uid eid ts : String)
    (du : DomainUser) (ev : DomainEvent)
    (hU : user_get_by_id t uid = .ok (some du))
    (hE : event_get_by_id t eid = .ok (some ev))
    (hR : get_registration t uid eid = .ok none)
    (hFull : ev.current_registrations ≥ ev.capacity)
    (hWl : ev.waitlist_enabled = true) :
    (register_user t uid eid ts).2 = .ok ⟨uid, eid, "waitlisted", ts⟩ ∧
    getItem (register_user t uid eid ts).1 ("EVENT#" ++ eid)
        ("WAITLIST#" ++ ts ++ "#" ++ uid) =
      some ⟨"EVENT#" ++ eid, "WAITLIST#" ++ ts ++ "#" ++ uid,
        [("userId", .s uid), ("eventId", .s eid), ("addedAt", .s ts)]⟩ ∧
    getItem (register_user t uid eid ts).1 ("USER#" ++ uid) ("EVENT#" ++ eid) =
      some (regByUserItem ⟨uid, eid, "waitlisted", ts⟩) ∧
    getItem (register_user t uid eid ts).1 ("EVENT#" ++ eid)
        ("REGISTRATION#" ++ uid) =
      some (regByEventItem ⟨uid, eid, "waitlisted", ts⟩) ∧
    getItem (register_user t uid eid ts).1 ("EVENT#" ++ eid) "METADATA" =
      getItem t ("EVENT#" ++ eid) "METADATA" := by
  have h5 : ¬ev.waitlist_enabled = false := by
    rw [hWl]
    decide
  have heq := reg_eq_waitlist ts hU hE hR hFull h5
  rw [heq]
  refine ⟨rfl, ?_, ?_, ?_, ?_⟩
  · rw [getItem_create_registration_frame]
    · exact getItem_add_to_waitlist_self t uid eid ts
    · rintro ⟨hc, _⟩
      exact user_pk_ne_event_pk uid eid hc
    · rintro ⟨_, hc⟩
      exact reg_sk_ne_waitlist_sk uid ts uid hc
  · rw [getItem_create_registration_byUser, if_pos ⟨rfl, rfl⟩]
  · rw [getItem_create_registration_byEvent, if_pos ⟨rfl, rfl⟩]
  · rw [getItem_create_registration_frame]
    · rw [getItem_add_to_waitlist_frame]
      rintro ⟨_, hc⟩
      exact waitlist_sk_ne_metadata (strStarts_waitlist_sk ts uid) hc
    · rintro ⟨hc, _⟩
      exact user_pk_ne_event_pk uid eid hc
    · rintro ⟨_, hc⟩
      exact reg_sk_ne_metadata uid hc

/-- C5 (witness): user B registers into the full capacity-1 event E1 whose
waitlist is enabled, ends up waitlisted, and the METADATA item is untouched. -/
theorem C5_register_full_waitlist_enabled_witness :
    (register_user (runOps [] (unregisterWaitlistedTrace.take 4)) "B" "E1" "T2").2 =
      .ok ⟨"B", "E1", "waitlisted", "T2"⟩ ∧
    getItem (register_user (runOps [] (unregisterWaitlistedTrace.take 4)) "B" "E1"
        "T2").1 ("EVENT#" ++ "E1") "METADATA" =
      getItem (runOps [] (unregisterWaitlistedTrace.take 4))
        ("EVENT#" ++ "E1") "METADATA" :=
  ⟨(C5_register_full_waitlist_enabled _ "B" "E1" "T2" ⟨"B", "Bob", "T0"⟩
      ⟨"E1", "Launch", "d", "2025-01-01", "HQ", 1, "Org", "scheduled", 1, true,
        "T0", "T0"⟩
      (by rfl) (by rfl) (by rfl) (by decide) (by decide)).1,
   (C5_register_full_waitlist_enabled _ "B" "E1" "T2" ⟨"B", "Bob", "T0"⟩
      ⟨"E1", "Launch", "d", "2025-01-01", "HQ", 1, "Org", "scheduled", 1, true,
        "T0", "T0"⟩
      (by rfl) (by rfl) (by rfl) (by decide) (by decide)).2.2.2.2⟩

/-- C6: every failing register call leaves the table exactly as before, and
the error triggers are as specified — absent user or event raise NotFound,
an existing registration record of either status raises AlreadyExists, and
a full event without waitlist raises CapacityExceeded. -/
theorem C6_register_failures_leave_state_unchanged (t : Table)
    (uid eid ts : String) :
    (∀ e2 : Err, (register_user t uid eid ts).2 = .error e2 →
      (register_user t uid eid ts).1 = t) ∧
    (getItem t ("USER#" ++ uid) "PROFILE" = none →
      register_user t uid eid ts = (t, .error .notFound)) ∧
    (∀ du : DomainUser, user_get_by_id t uid = .ok (some du) →
      getItem t ("EVENT#" ++ eid) "METADATA" = none →
      register_user t uid eid ts = (t, .error .notFound)) ∧
    (∀ (du : DomainUser) (ev : DomainEvent) (r : DomainRegistration),
      user_get_by_id t uid = .ok (some du) →
      event_get_by_id t eid = .ok (some ev) →
      get_registration t uid eid = .ok (some r) →
      register_user t uid eid ts = (t, .error .alreadyExists)) ∧
    (∀ (du : DomainUser) (ev : DomainEvent),
      user_get_by_id t uid = .ok (some du) →
      event_get_by_id t eid = .ok (some ev) →
      get_registration t uid eid = .ok none →
      ev.current_registrations ≥ ev.capacity →
      ev.waitlist_enabled = false →
      register_user t uid eid ts = (t, .error .capacityExceeded)) := by
  refine ⟨?_, ?_, ?_, ?_, ?_⟩
  · intro e2 he
    cases h1 : user_get_by_id t uid with
    | error e => rw [reg_eq_user_fault eid ts h1]
    | ok ou =>
      cases ou with
      | none => rw [reg_eq_user_absent eid ts h1]
      | some du =>
        cases h2 : event_get_by_id t eid with
        | error e => rw [reg_eq_event_fault ts h1 h2]
        | ok oe =>
          cases oe with
          | none => rw [reg_eq_event_absent ts h1 h2]
          | some ev =>
            cases h3 : get_registration t uid eid with
            | error e => rw [reg_eq_regread_fault ts h1 h2 h3]
            | ok orx =>
              cases orx with
              | some r => rw [reg_eq_already ts h1 h2 h3]
              | none =>
                by_cases h4 : ev.current_registrations ≥ ev.capacity
                · by_cases h5 : ev.waitlist_enabled = false
                  · rw [reg_eq_cap ts h1 h2 h3 h4 h5]
                  · rw [reg_eq_waitlist ts h1 h2 h3 h4 h5] at he
                    exact Except.noConfusion he
                · cases h6 : increment_registrations t eid with
                  | error e => rw [reg_eq_incr_fail ts h1 h2 h3 h4 h6]
                  | ok t1 =>
                    rw [reg_eq_incr_ok ts h1 h2 h3 h4 h6] at he
                    exact Except.noConfusion he
  · intro hu
    have h1 : user_get_by_id t uid = .ok none := by
      rw [user_get_by_id, hu]
    exact reg_eq_user_absent eid ts h1
  · intro du h1 hev
    have h2 : event_get_by_id t eid = .ok none := by
      rw [event_get_by_id, hev]
    exact reg_eq_event_absent ts h1 h2
  · intro du ev r h1 h2 h3
    exact reg_eq_already ts h1 h2 h3
  · intro du ev h1 h2 h3 h4 h5
    exact reg_eq_cap ts h1 h2 h3 h4 h5

/-- C6 (witness): concrete failing calls — absent user, duplicate
registration, and a full event without waitlist — return the specified
errors and leave the concrete table unchanged. -/
theorem C6_register_failures_leave_state_unchanged_witness :
    register_user ([] : Table) "A" "E1" "T1" = ([], .error .notFound) ∧
    register_user (runOps [] (capacityLowerTrace.take 4)) "A" "E1" "T2" =
      (runOps [] (capacityLowerTrace.take 4), .error .alreadyExists) ∧
    register_user (runOps [] (capacityLowerTrace.take 5 ++
        [Op.createUser "C" "Carol" "T0"])) "C" "E1" "T3" =
      (runOps [] (capacityLowerTrace.take 5 ++ [Op.createUser "C" "Carol" "T0"]),
        .error .capacityExceeded) ∧
    (register_user (runOps [] (capacityLowerTrace.take 5 ++
        [Op.createUser "C" "Carol" "T0"])) "C" "E1" "T3").1 =
      runOps [] (capacityLowerTrace.take 5 ++ [Op.createUser "C" "Carol" "T0"]) := by
  refine ⟨?_, ?_, ?_, ?_⟩
  · exact (C6_register_failures_leave_state_unchanged [] "A" "E1" "T1").2.1
      (by rfl)
  · exact (C6_register_failures_leave_state_unchanged _ "A" "E1" "T2").2.2.2.1
      ⟨"A", "Alice", "T0"⟩
      ⟨"E1", "Launch", "d", "2025-01-01", "HQ", 2, "Org", "scheduled", 1, false,
        "T0", "T0"⟩
      ⟨"A", "E1", "registered", "T1"⟩ (by rfl) (by rfl) (by rfl)
  · exact (C6_register_failures_leave_state_unchanged _ "C" "E1" "T3").2.2.2.2
      ⟨"C", "Carol", "T0"⟩
      ⟨"E1", "Launch", "d", "2025-01-01", "HQ", 2, "Org", "scheduled", 2, false,
        "T0", "T0"⟩
      (by rfl) (by rfl) (by rfl) (by decide) (by rfl)
  · exact (C6_register_failures_leave_state_unchanged _ "C" "E1" "T3").1
      .capacityExceeded (by rfl)

/-! ### Lemmas for the update path -/

theorem mem_optField {α : Type} {nm : String} {f : α → AttrVal} {o : Option α}
    {p : String × AttrVal} (h : p ∈ optField nm f o) : p.1 = nm := by
  cases o with
  | none => simp [optField] at h
  | some v =>
    simp only [optField, List.mem_singleton] at h
    rw [h]

theorem updateData_key_mem {u : EventUpdate} {p : String × AttrVal}
    (h : p ∈ updateData u) :
    p.1 = "title" ∨ p.1 = "description" ∨ p.1 = "date" ∨ p.1 = "location" ∨
    p.1 = "capacity" ∨ p.1 = "organizer" ∨ p.1 = "status" ∨
    p.1 = "waitlistEnabled" := by
  rw [updateData] at h
  simp only [List.mem_append] at h
  rcases h with ((((((h | h) | h) | h) | h) | h) | h) | h
  · exact Or.inl (mem_optField h)
  · exact Or.inr (Or.inl (mem_optField h))
  · exact Or.inr (Or.inr (Or.inl (mem_optField h)))
  · exact Or.inr (Or.inr (Or.inr (Or.inl (mem_optField h))))
  · exact Or.inr (Or.inr (Or.inr (Or.inr (Or.inl (mem_optField h)))))
  · exact Or.inr (Or.inr (Or.inr (Or.inr (Or.inr (Or.inl (mem_optField h))))))
  · exact Or.inr (Or.inr (Or.inr (Or.inr (Or.inr (Or.inr (Or.inl
      (mem_optField h)))))))
  · exact Or.inr (Or.inr (Or.inr (Or.inr (Or.inr (Or.inr (Or.inr
      (mem_optField h)))))))

theorem getItem_applyUpdates_frame (us : List (String × AttrVal)) (t : Table)
    (pk sk pk2 sk2 : String) (h : ¬(pk = pk2 ∧ sk = sk2)) :
    getItem (us.foldl (fun acc kv => updateItemSet acc pk sk kv.1 kv.2) t)
      pk2 sk2 = getItem t pk2 sk2 := by
  induction us generalizing t with
  | nil => rfl
  | cons kv us ih =>
    rw [List.foldl_cons, ih, getItem_updateItemSet, if_neg h]

theorem fieldAt_updateItemSet_self_same (t : Table) (pk sk k : String)
    (v : AttrVal) :
    fieldAt (updateItemSet t pk sk k v) pk sk k = some v := by
  rw [fieldAt, getItem_updateItemSet, if_pos ⟨rfl, rfl⟩]
  cases hg : getItem t pk sk with
  | some it => simp [getAttr_setAttr]
  | none => simp [getAttr, lookupAttr]

theorem fieldAt_updateItemSet_self_ne (t : Table) (pk sk k : String)
    (v : AttrVal) (f : String) (h : ¬f = k) :
    fieldAt (updateItemSet t pk sk k v) pk sk f = fieldAt t pk sk f := by
  rw [fieldAt, fieldAt, getItem_updateItemSet, if_pos ⟨rfl, rfl⟩]
  cases hg : getItem t pk sk with
  | some it => simp [getAttr_setAttr, h]
  | none =>
    have hb : ((k : String) == f) = false := by
      cases hs : k == f
      · rfl
      · exact absurd (beq_iff_eq.mp hs).symm h
    simp [getAttr, lookupAttr, hb]

theorem fieldAt_applyUpdates_not_key (us : List (String × AttrVal)) (t : Table)
    (pk sk f : String) (hf : ∀ p ∈ us, ¬f = p.1) :
    fieldAt (us.foldl (fun acc kv => updateItemSet acc pk sk kv.1 kv.2) t)
      pk sk f = fieldAt t pk sk f := by
  induction us generalizing t with
  | nil => rfl
  | cons kv us ih =>
    rw [List.foldl_cons, ih _ (fun p hp => hf p (List.mem_cons_of_mem kv hp)),
      fieldAt_updateItemSet_self_ne _ _ _ _ _ _ (hf kv (List.mem_cons_self _ _))]

/-- C10: on an existing event, `updateEvent` succeeds, touches no item other
than the event's METADATA item, sets `updatedAt` to the call's timestamp,
and leaves every attribute whose name is not among the update's fields (and
not `updatedAt`) unchanged — in particular `currentRegistrations`,
`createdAt` and `eventId`. -/
theorem C10_update_event_touches_only_given_fields (t : Table) (eid : String)
    (u : EventUpdate) (ts : String) (ev : DomainEvent)
    (hE : event_get_by_id t eid = .ok (some ev))
    (hNe : ¬updateData u = []) :
    update_event t eid u ts =
      .ok ((updateData u ++ [("updatedAt", AttrVal.s ts)]).foldl
        (fun acc (kv : String × AttrVal) => updateItemSet acc ("EVENT#" ++ eid) "METADATA" kv.1 kv.2)
        t) ∧
    (∀ t2, update_event t eid u ts = .ok t2 →
      (∀ pk sk, ¬(("EVENT#" ++ eid : String) = pk ∧ ("METADATA" : String) = sk) →
        getItem t2 pk sk = getItem t pk sk) ∧
      fieldAt t2 ("EVENT#" ++ eid) "METADATA" "updatedAt" = some (.s ts) ∧
      (∀ f, (∀ p ∈ updateData u, ¬f = p.1) → ¬f = "updatedAt" →
        fieldAt t2 ("EVENT#" ++ eid) "METADATA" f =
          fieldAt t ("EVENT#" ++ eid) "METADATA" f) ∧
      fieldAt t2 ("EVENT#" ++ eid) "METADATA" "currentRegistrations" =
        fieldAt t ("EVENT#" ++ eid) "METADATA" "currentRegistrations" ∧
      fieldAt t2 ("EVENT#" ++ eid) "METADATA" "createdAt" =
        fieldAt t ("EVENT#" ++ eid) "METADATA" "createdAt" ∧
      fieldAt t2 ("EVENT#" ++ eid) "METADATA" "eventId" =
        fieldAt t ("EVENT#" ++ eid) "METADATA" "eventId") := by
  have heq : update_event t eid u ts =
      .ok ((updateData u ++ [("updatedAt", AttrVal.s ts)]).foldl
        (fun acc (kv : String × AttrVal) => updateItemSet acc ("EVENT#" ++ eid) "METADATA" kv.1 kv.2)
        t) := by
    rw [update_event, if_neg hNe, event_repo_update, hE]
  refine ⟨heq, ?_⟩
  intro t2 h2
  rw [heq] at h2
  have ht2 : t2 = (updateData u ++ [("updatedAt", AttrVal.s ts)]).foldl
      (fun acc (kv : String × AttrVal) => updateItemSet acc ("EVENT#" ++ eid) "METADATA" kv.1 kv.2)
      t := by
    cases h2
    rfl
  subst ht2
  refine ⟨?_, ?_, ?_, ?_, ?_, ?_⟩
  · intro pk sk h
    exact getItem_applyUpdates_frame _ t _ _ pk sk h
  · rw [List.foldl_append, List.foldl_cons, List.foldl_nil]
    exact fieldAt_updateItemSet_self_same _ _ _ _ _
  · intro f hfu hfts
    apply fieldAt_applyUpdates_not_key
    intro p hp
    rcases List.mem_append.mp hp with hp2 | hp2
    · exact hfu p hp2
    · rcases List.mem_singleton.mp hp2 with rfl
      exact hfts
  · apply fieldAt_applyUpdates_not_key
    intro p hp
    rcases List.mem_append.mp hp with hp2 | hp2
    · rcases updateData_key_mem hp2 with h|h|h|h|h|h|h|h <;> rw [h] <;> decide
    · rcases List.mem_singleton.mp hp2 with rfl
      intro hc
      have hc2 : ("currentRegistrations" : String) = "updatedAt" := hc
      exact absurd hc2 (by decide)
  · apply fieldAt_applyUpdates_not_key
    intro p hp
    rcases List.mem_append.mp hp with hp2 | hp2
    · rcases updateData_key_mem hp2 with h|h|h|h|h|h|h|h <;> rw [h] <;> decide
    · rcases List.mem_singleton.mp hp2 with rfl
      intro hc
      have hc2 : ("createdAt" : String) = "updatedAt" := hc
      exact absurd hc2 (by decide)
  · apply fieldAt_applyUpdates_not_key
    intro p hp
    rcases List.mem_append.mp hp with hp2 | hp2
    · rcases updateData_key_mem hp2 with h|h|h|h|h|h|h|h <;> rw [h] <;> decide
    · rcases List.mem_singleton.mp hp2 with rfl
      intro hc
      have hc2 : ("eventId" : String) = "updatedAt" := hc
      exact absurd hc2 (by decide)

/-- C10 (witness): lowering the capacity of the concrete event E1 keeps its
counter, sets `updatedAt` to T3, and leaves the registration record of user
A untouched. -/
theorem C10_update_event_touches_only_given_fields_witness :
    fieldAt ((updateData ⟨none, none, none, none, some 1, none, none, none⟩ ++
        [("updatedAt", AttrVal.s "T3")]).foldl
        (fun acc (kv : String × AttrVal) =>
          updateItemSet acc ("EVENT#" ++ "E1") "METADATA" kv.1 kv.2)
        (runOps [] (capacityLowerTrace.take 5)))
      ("EVENT#" ++ "E1") "METADATA" "currentRegistrations" =
      fieldAt (runOps [] (capacityLowerTrace.take 5)) ("EVENT#" ++ "E1")
        "METADATA" "currentRegistrations" ∧
    fieldAt ((updateData ⟨none, none, none, none, some 1, none, none, none⟩ ++
        [("updatedAt", AttrVal.s "T3")]).foldl
        (fun acc (kv : String × AttrVal) =>
          updateItemSet acc ("EVENT#" ++ "E1") "METADATA" kv.1 kv.2)
        (runOps [] (capacityLowerTrace.take 5)))
      ("EVENT#" ++ "E1") "METADATA" "updatedAt" = some (.s "T3") ∧
    getItem ((updateData ⟨none, none, none, none, some 1, none, none, none⟩ ++
        [("updatedAt", AttrVal.s "T3")]).foldl
        (fun acc (kv : String × AttrVal) =>
          updateItemSet acc ("EVENT#" ++ "E1") "METADATA" kv.1 kv.2)
        (runOps [] (capacityLowerTrace.take 5)))
      "USER#A" "EVENT#E1" =
      getItem (runOps [] (capacityLowerTrace.take 5)) "USER#A" "EVENT#E1" := by
  have hthm := C10_update_event_touches_only_given_fields
    (runOps [] (capacityLowerTrace.take 5)) "E1"
    ⟨none, none, none, none, some 1, none, none, none⟩ "T3"
    ⟨"E1", "Launch", "d", "2025-01-01", "HQ", 2, "Org", "scheduled", 2, false,
      "T0", "T0"⟩ (by rfl) (by decide)
  exact ⟨(hthm.2 _ (by rfl)).2.2.2.1, (hthm.2 _ (by rfl)).2.1,
    (hthm.2 _ (by rfl)).1 "USER#A" "EVENT#E1" (by decide)⟩

theorem metadata_ne_reg_sk (u : String) : "METADATA" ≠ "REGISTRATION#" ++ u :=
  ne_append u (by decide) (by decide)

theorem fieldAt_congr {t1 t2 : Table} {pk sk : String}
    (h : getItem t1 pk sk = getItem t2 pk sk) (f : String) :
    fieldAt t1 pk sk f = fieldAt t2 pk sk f := by
  rw [fieldAt, fieldAt, h]

theorem statusAt_congr {t1 t2 : Table} {pk sk : String}
    (h : getItem t1 pk sk = getItem t2 pk sk) :
    statusAt t1 pk sk = statusAt t2 pk sk := by
  rw [statusAt, statusAt]
  exact fieldAt_congr h "registrationStatus"

/-- C4: unregistering a registered user from an event with a non-empty
waitlist promotes exactly the entry with the lexicographically smallest sort
key: both mirror records of that entry's user end up `registered`, the entry
itself is deleted, the unregistering user's mirrors are deleted, the call
completes, and the counter is the same after the call as before it. -/
theorem C4_unregister_promotes_oldest_waitlisted (t : Table) (uid eid : String)
    (it mit w : Item) (reg : DomainRegistration) (k : Int) (wuid : String)
    (hReg : getItem t ("USER#" ++ uid) ("EVENT#" ++ eid) = some it)
    (hParse : regOfItem it = some reg)
    (hSt : reg.registration_status = "registered")
    (hMeta : getItem t ("EVENT#" ++ eid) "METADATA" = some mit)
    (hCtr : getAttr mit "currentRegistrations" = some (.n k))
    (hW : get_first_waitlisted t eid = some w)
    (hWuid : getAttr w "userId" = some (.s wuid))
    (hNe : ¬wuid = uid) :
    (unregister_user t uid eid).2 = none ∧
    counterAttr (unregister_user t uid eid).1 eid = some (.n k) ∧
    counterAttr t eid = some (.n k) ∧
    statusAt (unregister_user t uid eid).1 ("USER#" ++ wuid) ("EVENT#" ++ eid) =
      some (.s "registered") ∧
    statusAt (unregister_user t uid eid).1 ("EVENT#" ++ eid)
      ("REGISTRATION#" ++ wuid) = some (.s "registered") ∧
    getItem (unregister_user t uid eid).1 w.pk w.sk = none ∧
    getItem (unregister_user t uid eid).1 ("USER#" ++ uid) ("EVENT#" ++ eid) =
      none ∧
    getItem (unregister_user t uid eid).1 ("EVENT#" ++ eid)
      ("REGISTRATION#" ++ uid) = none ∧
    (w ∈ t ∧ w.pk = "EVENT#" ++ eid ∧ strStarts w.sk "WAITLIST#" = true) ∧
    (∀ x ∈ t, x.pk = "EVENT#" ++ eid → strStarts x.sk "WAITLIST#" = true →
      skLe w.sk x.sk = true) := by
  have hwq := query_head_min (hW : (query t ("EVENT#" ++ eid)
    "WAITLIST#").head? = some w)
  have hwpk : w.pk = "EVENT#" ++ eid := hwq.1.2.1
  have hwsk : strStarts w.sk "WAITLIST#" = true := hwq.1.2.2
  have h1 : get_registration t uid eid = .ok (some reg) := by
    rw [get_registration, hReg]
    simp [hParse]
  have h3 : decrement_registrations t eid =
      .ok (updateItemSet t ("EVENT#" ++ eid) "METADATA" "currentRegistrations"
        (.n (k + (-1)))) := decrement_ok hMeta hCtr
  set t1 := updateItemSet t ("EVENT#" ++ eid) "METADATA" "currentRegistrations"
    (.n (k + (-1))) with ht1
  have h4 : get_first_waitlisted t1 eid = some w := by
    rw [get_first_waitlisted, ht1, query_updateItemSet_ne]
    · exact hW
    · rintro ⟨_, hs⟩
      exact absurd hs (by decide)
  have hmeta1 : getItem t1 ("EVENT#" ++ eid) "METADATA" =
      some (setAttr mit "currentRegistrations" (.n (k + (-1)))) := by
    rw [ht1, getItem_updateItemSet, if_pos ⟨rfl, rfl⟩, hMeta]
  set t3 := remove_from_waitlist
    (update_registration_status t1 wuid eid "registered") w.pk w.sk with ht3
  have hmeta3 : getItem t3 ("EVENT#" ++ eid) "METADATA" =
      some (setAttr mit "currentRegistrations" (.n (k + (-1)))) := by
    rw [ht3, remove_from_waitlist, getItem_deleteItem]
    rw [if_neg (by
      rintro ⟨_, hc⟩
      exact waitlist_sk_ne_metadata hwsk hc)]
    rw [getItem_urs_frame]
    · exact hmeta1
    · rintro ⟨hc, _⟩
      exact user_pk_ne_event_pk wuid eid hc
    · rintro ⟨_, hc⟩
      exact reg_sk_ne_metadata wuid hc
  have hctr3 : getAttr (setAttr mit "currentRegistrations" (.n (k + (-1))))
      "currentRegistrations" = some (.n (k + (-1))) := by
    rw [getAttr_setAttr, if_pos rfl]
  have h6 : increment_registrations t3 eid =
      .ok (updateItemSet t3 ("EVENT#" ++ eid) "METADATA" "currentRegistrations"
        (.n (k + (-1) + 1))) := increment_ok hmeta3 hctr3
  set t4 := updateItemSet t3 ("EVENT#" ++ eid) "METADATA" "currentRegistrations"
    (.n (k + (-1) + 1)) with ht4
  have heq := unreg_eq_promote h1 hSt h3 h4 hWuid h6
  rw [heq]
  have hkk : k + (-1) + 1 = k := by omega
  refine ⟨rfl, ?_, ?_, ?_, ?_, ?_, ?_, ?_, hwq.1, hwq.2⟩
  · have hgi : getItem (delete_registration t4 uid eid) ("EVENT#" ++ eid)
        "METADATA" = getItem t4 ("EVENT#" ++ eid) "METADATA" := by
      rw [getItem_delete_registration_frame]
      · rintro ⟨hc, _⟩
        exact user_pk_ne_event_pk uid eid hc
      · rintro ⟨_, hc⟩
        exact reg_sk_ne_metadata uid hc
    rw [counterAttr, fieldAt_congr hgi "currentRegistrations", ht4,
      fieldAt_updateItemSet_self_same, hkk]
  · rw [counterAttr, fieldAt, hMeta]
    simp [hCtr]
  · have hgi : getItem (delete_registration t4 uid eid) ("USER#" ++ wuid)
        ("EVENT#" ++ eid) = getItem
          (update_registration_status t1 wuid eid "registered")
          ("USER#" ++ wuid) ("EVENT#" ++ eid) := by
      rw [getItem_delete_registration_frame]
      · rw [ht4, getItem_updateItemSet]
        rw [if_neg (by
          rintro ⟨hc, _⟩
          exact event_pk_ne_user_pk eid wuid hc)]
        rw [ht3, remove_from_waitlist, getItem_deleteItem]
        rw [if_neg (by
          rintro ⟨hc, _⟩
          rw [hwpk] at hc
          exact event_pk_ne_user_pk eid wuid hc)]
      · rintro ⟨hc, _⟩
        exact hNe (user_pk_inj hc).symm
      · rintro ⟨hc, _⟩
        exact event_pk_ne_user_pk eid wuid hc
    rw [statusAt_congr hgi, statusAt_urs_byUser]
  · have hgi : getItem (delete_registration t4 uid eid) ("EVENT#" ++ eid)
        ("REGISTRATION#" ++ wuid) = getItem
          (update_registration_status t1 wuid eid "registered")
          ("EVENT#" ++ eid) ("REGISTRATION#" ++ wuid) := by
      rw [getItem_delete_registration_frame]
      · rw [ht4, getItem_updateItemSet]
        rw [if_neg (by
          rintro ⟨_, hc⟩
          exact metadata_ne_reg_sk wuid hc)]
        rw [ht3, remove_from_waitlist, getItem_deleteItem]
        rw [if_neg (by
          rintro ⟨_, hc⟩
          exact waitlist_sk_ne_reg_sk wuid hwsk hc)]
      · rintro ⟨hc, _⟩
        exact user_pk_ne_event_pk uid eid hc
      · rintro ⟨_, hc⟩
        exact hNe (reg_sk_inj hc).symm
    rw [statusAt_congr hgi, statusAt_urs_byEvent]
  · rw [getItem_delete_registration_frame]
    · rw [ht4, getItem_updateItemSet]
      rw [if_neg (by
        rintro ⟨_, hc⟩
        exact waitlist_sk_ne_metadata hwsk hc.symm)]
      rw [ht3, remove_from_waitlist, getItem_deleteItem, if_pos ⟨rfl, rfl⟩]
    · rintro ⟨hc, _⟩
      rw [hwpk] at hc
      exact user_pk_ne_event_pk uid eid hc
    · rintro ⟨_, hc⟩
      exact waitlist_sk_ne_reg_sk uid hwsk hc.symm
  · exact getItem_delete_registration_byUser t4 uid eid
  · exact getItem_delete_registration_byEvent t4 uid eid

/-- C4 (witness): unregistering the registered user A from the full event E1
promotes the only waitlisted user B, deletes the entry `WAITLIST#T2#B` and
restores the counter to 1. -/
theorem C4_unregister_promotes_oldest_waitlisted_witness :
    (unregister_user (runOps [] unregisterWaitlistedTrace) "A" "E1").2 = none ∧
    counterAttr (unregister_user (runOps [] unregisterWaitlistedTrace) "A"
      "E1").1 "E1" = some (.n 1) ∧
    statusAt (unregister_user (runOps [] unregisterWaitlistedTrace) "A" "E1").1
      ("USER#" ++ "B") ("EVENT#" ++ "E1") = some (.s "registered") ∧
    getItem (unregister_user (runOps [] unregisterWaitlistedTrace) "A" "E1").1
      "EVENT#E1" "WAITLIST#T2#B" = none := by
  have h := C4_unregister_promotes_oldest_waitlisted
    (runOps [] unregisterWaitlistedTrace) "A" "E1"
    ⟨"USER#" ++ "A", "EVENT#" ++ "E1",
      [("userId", .s "A"), ("eventId", .s "E1"),
       ("registrationStatus", .s "registered"), ("registeredAt", .s "T1")]⟩
    ⟨"EVENT#" ++ "E1", "METADATA",
      [("eventId", .s "E1"), ("title", .s "Launch"), ("description", .s "d"),
       ("date", .s "2025-01-01"), ("location", .s "HQ"), ("capacity", .n 1),
       ("organizer", .s "Org"), ("status", .s "scheduled"),
       ("currentRegistrations", .n 1), ("waitlistEnabled", .b true),
       ("createdAt", .s "T0"), ("updatedAt", .s "T0")]⟩
    ⟨"EVENT#E1", "WAITLIST#T2#B",
      [("userId", .s "B"), ("eventId", .s "E1"), ("addedAt", .s "T2")]⟩
    ⟨"A", "E1", "registered", "T1"⟩ 1 "B"
    (by rfl) (by rfl) (by rfl) (by rfl) (by rfl) (by rfl) (by rfl) (by decide)
  exact ⟨h.1, h.2.1, h.2.2.2.1, h.2.2.2.2.2.1⟩

/-! ### Inversion lemmas and invariant preservation -/

theorem runOps_cons (t : Table) (op : Op) (ops : List Op) :
    runOps t (op :: ops) = runOps (applyOp t op) ops := rfl

theorem increment_inv {t : Table} {eid : String} {t1 : Table}
    (h : increment_registrations t eid = .ok t1) :
    ∃ it0 k, getItem t ("EVENT#" ++ eid) "METADATA" = some it0 ∧
      getAttr it0 "currentRegistrations" = some (.n k) ∧
      t1 = updateItemSet t ("EVENT#" ++ eid) "METADATA" "currentRegistrations"
        (.n (k + 1)) := by
  rw [increment_registrations, updateItemAdd] at h
  cases hg : getItem t ("EVENT#" ++ eid) "METADATA" with
  | none => rw [hg] at h; exact Except.noConfusion h
  | some it0 =>
    rw [hg] at h
    cases ha : getAttr it0 "currentRegistrations" with
    | none =>
      simp only [ha] at h
      exact Except.noConfusion h
    | some v =>
      cases v with
      | s s2 =>
        simp only [ha] at h
        exact Except.noConfusion h
      | b b2 =>
        simp only [ha] at h
        exact Except.noConfusion h
      | n k =>
        simp only [ha] at h
        cases h
        exact ⟨it0, k, rfl, ha, rfl⟩

theorem decrement_inv {t : Table} {eid : String} {t1 : Table}
    (h : decrement_registrations t eid = .ok t1) :
    ∃ it0 k, getItem t ("EVENT#" ++ eid) "METADATA" = some it0 ∧
      getAttr it0 "currentRegistrations" = some (.n k) ∧
      t1 = updateItemSet t ("EVENT#" ++ eid) "METADATA" "currentRegistrations"
        (.n (k + (-1))) := by
  rw [decrement_registrations, updateItemAdd] at h
  cases hg : getItem t ("EVENT#" ++ eid) "METADATA" with
  | none => rw [hg] at h; exact Except.noConfusion h
  | some it0 =>
    rw [hg] at h
    cases ha : getAttr it0 "currentRegistrations" with
    | none =>
      simp only [ha] at h
      exact Except.noConfusion h
    | some v =>
      cases v with
      | s s2 =>
        simp only [ha] at h
        exact Except.noConfusion h
      | b b2 =>
        simp only [ha] at h
        exact Except.noConfusion h
      | n k =>
        simp only [ha] at h
        cases h
        exact ⟨it0, k, rfl, ha, rfl⟩

theorem event_get_by_id_inv {t : Table} {eid : String} {ev : DomainEvent}
    (h : event_get_by_id t eid = .ok (some ev)) :
    ∃ mit, getItem t ("EVENT#" ++ eid) "METADATA" = some mit ∧
      eventOfItem mit = some ev := by
  rw [event_get_by_id] at h
  cases hg : getItem t ("EVENT#" ++ eid) "METADATA" with
  | none =>
    rw [hg] at h
    injection h with h2
    exact Option.noConfusion h2
  | some mit =>
    rw [hg] at h
    cases hp : eventOfItem mit with
    | none =>
      simp only [hp] at h
      exact Except.noConfusion h
    | some ev2 =>
      simp only [hp] at h
      cases h
      exact ⟨mit, rfl, hp⟩

theorem ctrLeCapAt_iff {t : Table} {e : String} :
    ctrLeCapAt t e = true ↔
      ∀ it, getItem t ("EVENT#" ++ e) "METADATA" = some it →
        itemCtr it ≤ itemCap it := by
  cases hg : getItem t ("EVENT#" ++ e) "METADATA" with
  | none =>
    rw [ctrLeCapAt, hg]
    simp
  | some it0 =>
    rw [ctrLeCapAt, hg]
    constructor
    · intro h it hh
      cases hh
      exact of_decide_eq_true h
    · intro h
      exact decide_eq_true (h it0 rfl)

theorem itemCtr_setCtr (it : Item) (m : Int) :
    itemCtr (setAttr it "currentRegistrations" (.n m)) = m := by
  rw [itemCtr, getAttr_setAttr, if_pos rfl]

theorem itemCap_setCtr (it : Item) (m : Int) :
    itemCap (setAttr it "currentRegistrations" (.n m)) = itemCap it := by
  rw [itemCap, itemCap, getAttr_setAttr, if_neg (by decide)]

theorem ctrLeCap_putItem (t : Table) (it : Item) (hInv : ctrLeCap t)
    (hne : ∀ e : String, ¬(it.pk = "EVENT#" ++ e ∧ it.sk = "METADATA")) :
    ctrLeCap (putItem t it) := by
  intro e
  rw [ctrLeCapAt_iff]
  intro it2 hg
  rw [getItem_putItem, if_neg (hne e)] at hg
  exact (ctrLeCapAt_iff.mp (hInv e)) it2 hg

theorem ctrLeCap_deleteItem (t : Table) (pk sk : String) (hInv : ctrLeCap t) :
    ctrLeCap (deleteItem t pk sk) := by
  intro e
  rw [ctrLeCapAt_iff]
  intro it2 hg
  rw [getItem_deleteItem] at hg
  by_cases h : pk = "EVENT#" ++ e ∧ sk = "METADATA"
  · rw [if_pos h] at hg
    exact Option.noConfusion hg
  · rw [if_neg h] at hg
    exact (ctrLeCapAt_iff.mp (hInv e)) it2 hg

theorem ctrLeCap_updateItemSet_ne (t : Table) (pk sk f : String) (v : AttrVal)
    (hInv : ctrLeCap t)
    (hne : ∀ e : String, ¬(pk = "EVENT#" ++ e ∧ sk = "METADATA")) :
    ctrLeCap (updateItemSet t pk sk f v) := by
  intro e
  rw [ctrLeCapAt_iff]
  intro it2 hg
  rw [getItem_updateItemSet, if_neg (hne e)] at hg
  exact (ctrLeCapAt_iff.mp (hInv e)) it2 hg

theorem ctrLeCap_setCounter {t : Table} {eid : String} {it0 : Item} (m : Int)
    (hInv : ctrLeCap t)
    (hg0 : getItem t ("EVENT#" ++ eid) "METADATA" = some it0)
    (hle : m ≤ itemCap it0) :
    ctrLeCap (updateItemSet t ("EVENT#" ++ eid) "METADATA"
      "currentRegistrations" (.n m)) := by
  intro e
  rw [ctrLeCapAt_iff]
  intro it2 hg
  rw [getItem_updateItemSet] at hg
  by_cases h : ("EVENT#" ++ eid : String) = "EVENT#" ++ e ∧
      ("METADATA" : String) = "METADATA"
  · rw [if_pos h, hg0] at hg
    have h2 : setAttr it0 "currentRegistrations" (.n m) = it2 := by
      cases hg
      rfl
    rw [← h2, itemCtr_setCtr, itemCap_setCtr]
    exact hle
  · rw [if_neg h] at hg
    exact (ctrLeCapAt_iff.mp (hInv e)) it2 hg

theorem ctrLeCap_create_registration (t : Table) (r : DomainRegistration)
    (hInv : ctrLeCap t) : ctrLeCap (create_registration t r) := by
  rw [create_registration]
  apply ctrLeCap_putItem
  · apply ctrLeCap_putItem _ _ hInv
    intro e
    rintro ⟨hc, _⟩
    exact user_pk_ne_event_pk r.user_id e hc
  · intro e
    rintro ⟨_, hc⟩
    exact reg_sk_ne_metadata r.user_id hc

theorem ctrLeCap_add_to_waitlist (t : Table) (uid eid ts : String)
    (hInv : ctrLeCap t) : ctrLeCap (add_to_waitlist t uid eid ts) := by
  rw [add_to_waitlist]
  apply ctrLeCap_putItem _ _ hInv
  intro e
  rintro ⟨_, hc⟩
  exact waitlist_sk_ne_metadata (strStarts_waitlist_sk ts uid) hc

theorem ctrLeCap_urs (t : Table) (uid eid st : String) (hInv : ctrLeCap t) :
    ctrLeCap (update_registration_status t uid eid st) := by
  rw [update_registration_status]
  apply ctrLeCap_updateItemSet_ne
  · apply ctrLeCap_updateItemSet_ne _ _ _ _ _ hInv
    intro e
    rintro ⟨hc, _⟩
    exact user_pk_ne_event_pk uid e hc
  · intro e
    rintro ⟨_, hc⟩
    exact reg_sk_ne_metadata uid hc

theorem ctrLeCap_delete_registration (t : Table) (uid eid : String)
    (hInv : ctrLeCap t) : ctrLeCap (delete_registration t uid eid) :=
  ctrLeCap_deleteItem _ _ _ (ctrLeCap_deleteItem _ _ _ hInv)

theorem itemCap_of_asNum {it : Item} {c : Int}
    (h : asNum (getAttr it "capacity") = some c) : itemCap it = c := by
  rw [itemCap]
  cases hg : getAttr it "capacity" with
  | none =>
    rw [hg] at h
    exact Option.noConfusion h
  | some v =>
    cases v with
    | n m =>
      rw [hg] at h
      simp only [asNum] at h
      cases h
      rfl
    | s s2 =>
      rw [hg] at h
      simp only [asNum] at h
      exact Option.noConfusion h
    | b b2 =>
      rw [hg] at h
      simp only [asNum] at h
      exact Option.noConfusion h

theorem ctrLeCap_register (t : Table) (uid eid ts : String)
    (hInv : ctrLeCap t) : ctrLeCap (register_user t uid eid ts).1 := by
  cases h1 : user_get_by_id t uid with
  | error e =>
    rw [reg_eq_user_fault eid ts h1]
    exact hInv
  | ok ou =>
    cases ou with
    | none =>
      rw [reg_eq_user_absent eid ts h1]
      exact hInv
    | some du =>
      cases h2 : event_get_by_id t eid with
      | error e =>
        rw [reg_eq_event_fault ts h1 h2]
        exact hInv
      | ok oe =>
        cases oe with
        | none =>
          rw [reg_eq_event_absent ts h1 h2]
          exact hInv
        | some ev =>
          cases h3 : get_registration t uid eid with
          | error e =>
            rw [reg_eq_regread_fault ts h1 h2 h3]
            exact hInv
          | ok orx =>
            cases orx with
            | some r =>
              rw [reg_eq_already ts h1 h2 h3]
              exact hInv
            | none =>
              by_cases h4 : ev.current_registrations ≥ ev.capacity
              · by_cases h5 : ev.waitlist_enabled = false
                · rw [reg_eq_cap ts h1 h2 h3 h4 h5]
                  exact hInv
                · rw [reg_eq_waitlist ts h1 h2 h3 h4 h5]
                  exact ctrLeCap_create_registration _ _
                    (ctrLeCap_add_to_waitlist _ _ _ _ hInv)
              · cases h6 : increment_registrations t eid with
                | error e =>
                  rw [reg_eq_incr_fail ts h1 h2 h3 h4 h6]
                  exact hInv
                | ok t1 =>
                  rw [reg_eq_incr_ok ts h1 h2 h3 h4 h6]
                  apply ctrLeCap_create_registration
                  obtain ⟨mit, hgm, hparse⟩ := event_get_by_id_inv h2
                  obtain ⟨it0, k, hg0, ha0, ht1⟩ := increment_inv h6
                  have hmm : mit = it0 := by
                    have h7 := hgm.symm.trans hg0
                    cases h7
                    rfl
                  subst hmm
                  obtain ⟨hcapa, hno, _⟩ := eventOfItem_fields hparse
                  rw [ha0] at hno
                  simp only [numOrZero] at hno
                  have hk : k = ev.current_registrations := by
                    cases hno
                    rfl
                  have hcap : itemCap mit = ev.capacity := itemCap_of_asNum hcapa
                  rw [ht1]
                  apply ctrLeCap_setCounter (k + 1) hInv hg0
                  rw [hcap, hk]
                  omega

theorem ctrLeCap_unregister (t : Table) (uid eid : String)
    (hInv : ctrLeCap t) : ctrLeCap (unregister_user t uid eid).1 := by
  cases hr : get_registration t uid eid with
  | error e =>
    rw [unreg_eq_read_fault hr]
    exact hInv
  | ok orx =>
    cases orx with
    | none =>
      rw [unreg_eq_absent hr]
      exact hInv
    | some reg =>
      by_cases hst : reg.registration_status = "registered"
      · cases hd : decrement_registrations t eid with
        | error e =>
          rw [unreg_eq_dec_fail hr hst hd]
          exact hInv
        | ok t1 =>
          obtain ⟨it0, k, hg0, ha0, ht1⟩ := decrement_inv hd
          have hcap : itemCtr it0 ≤ itemCap it0 :=
            (ctrLeCapAt_iff.mp (hInv eid)) it0 hg0
          have hk : itemCtr it0 = k := by
            rw [itemCtr, ha0]
          have hInv1 : ctrLeCap t1 := by
            rw [ht1]
            apply ctrLeCap_setCounter (k + (-1)) hInv hg0
            omega
          cases hw : get_first_waitlisted t1 eid with
          | none =>
            rw [unreg_eq_no_waitlist hr hst hd hw]
            exact ctrLeCap_delete_registration _ _ _ hInv1
          | some w =>
            have hwq := query_head_min (hw : (query t1 ("EVENT#" ++ eid)
              "WAITLIST#").head? = some w)
            have hwsk : strStarts w.sk "WAITLIST#" = true := hwq.1.2.2
            cases ha : getAttr w "userId" with
            | none =>
              rw [unreg_eq_wuid_none hr hst hd hw ha]
              exact hInv1
            | some v =>
              cases v with
              | n x =>
                rw [unreg_eq_wuid_num hr hst hd hw ha]
                exact hInv1
              | b x =>
                rw [unreg_eq_wuid_bool hr hst hd hw ha]
                exact hInv1
              | s wuid =>
                have hInv3 : ctrLeCap (remove_from_waitlist
                    (update_registration_status t1 wuid eid "registered")
                    w.pk w.sk) := by
                  rw [remove_from_waitlist]
                  exact ctrLeCap_deleteItem _ _ _ (ctrLeCap_urs _ _ _ _ hInv1)
                cases hi : increment_registrations (remove_from_waitlist
                    (update_registration_status t1 wuid eid "registered")
                    w.pk w.sk) eid with
                | error e =>
                  rw [unreg_eq_promote_incr_fail hr hst hd hw ha hi]
                  exact hInv3
                | ok t4 =>
                  rw [unreg_eq_promote hr hst hd hw ha hi]
                  apply ctrLeCap_delete_registration
                  obtain ⟨it3, k3, hg3, ha3, ht4⟩ := increment_inv hi
                  have hg3b : getItem (remove_from_waitlist
                      (update_registration_status t1 wuid eid "registered")
                      w.pk w.sk) ("EVENT#" ++ eid) "METADATA" =
                      some (setAttr it0 "currentRegistrations"
                        (.n (k + (-1)))) := by
                    rw [remove_from_waitlist, getItem_deleteItem]
                    rw [if_neg (by
                      rintro ⟨_, hc⟩
                      exact waitlist_sk_ne_metadata hwsk hc)]
                    rw [getItem_urs_frame]
                    · rw [ht1, getItem_updateItemSet, if_pos ⟨rfl, rfl⟩, hg0]
                    · rintro ⟨hc, _⟩
                      exact user_pk_ne_event_pk wuid eid hc
                    · rintro ⟨_, hc⟩
                      exact reg_sk_ne_metadata wuid hc
                  have hit3 : it3 = setAttr it0 "currentRegistrations"
                      (.n (k + (-1))) := by
                    have h7 := hg3b.symm.trans hg3
                    cases h7
                    rfl
                  have hk3 : k3 = k + (-1) := by
                    rw [hit3, getAttr_setAttr, if_pos rfl] at ha3
                    cases ha3
                    rfl
                  rw [ht4]
                  apply ctrLeCap_setCounter (k3 + 1) hInv3 hg3
                  rw [hit3, itemCap_setCtr]
                  omega
      · rw [unreg_eq_waitlisted hr hst]
        exact ctrLeCap_delete_registration _ _ _ hInv

theorem ctrLeCap_of_forall_mem (t : Table)
    (h : ∀ it ∈ t, it.sk = "METADATA" → itemCtr it ≤ itemCap it) :
    ctrLeCap t := by
  intro e
  rw [ctrLeCapAt_iff]
  intro it hg
  exact h it (getItem_some_mem hg) (getItem_some_key hg).2

/-- C2 (amended theorem): the bound `currentRegistrations at most capacity`
is preserved by every sequence of registration-engine calls (register and
unregister) from any table satisfying it; the counterexample shows that
`updateEvent` lies outside this preserved class. -/
theorem C2_amended_engine_preserves_ctr_le_cap (ops : List Op) (t : Table)
    (hops : ∀ op ∈ ops, isEngineOp op = true) (hInv : ctrLeCap t) :
    ctrLeCap (runOps t ops) := by
  induction ops generalizing t with
  | nil => exact hInv
  | cons op ops ih =>
    rw [runOps_cons]
    apply ih
    · exact fun op2 h2 => hops op2 (List.mem_cons_of_mem op h2)
    have hop := hops op (List.mem_cons_self _ _)
    cases op with
    | register uid eid ts => exact ctrLeCap_register t uid eid ts hInv
    | unregister uid eid => exact ctrLeCap_unregister t uid eid hInv
    | createUser uid nm ts => exact Bool.noConfusion hop
    | createEvent eid ti de da lo cap org st wl ts => exact Bool.noConfusion hop
    | updateEvent eid u ts => exact Bool.noConfusion hop
    | deleteEvent eid => exact Bool.noConfusion hop

/-- C2 (witness for the amended theorem): from the concrete two-user table,
a register/register/unregister sequence keeps every counter within its
capacity. -/
theorem C2_amended_engine_preserves_ctr_le_cap_witness :
    ctrLeCap (runOps (runOps [] (capacityLowerTrace.take 3))
      [Op.register "A" "E1" "T1", Op.register "B" "E1" "T2",
       Op.unregister "A" "E1"]) :=
  C2_amended_engine_preserves_ctr_le_cap _ _ (by decide)
    (ctrLeCap_of_forall_mem _ (by decide))

/-! ### Mirror-consistency preservation -/

theorem mirrorAgree_of_unchanged {t1 t2 : Table} (u e : String)
    (h1 : getItem t2 ("USER#" ++ u) ("EVENT#" ++ e) =
      getItem t1 ("USER#" ++ u) ("EVENT#" ++ e))
    (h2 : getItem t2 ("EVENT#" ++ e) ("REGISTRATION#" ++ u) =
      getItem t1 ("EVENT#" ++ e) ("REGISTRATION#" ++ u))
    (hA : mirrorAgree t1 u e) : mirrorAgree t2 u e := by
  refine ⟨?_, ?_⟩
  · rw [h1, h2]
    exact hA.1
  · rw [statusAt, statusAt, fieldAt, fieldAt, h1, h2]
    exact hA.2

theorem MirrorInv_putItem (t : Table) (it : Item) (hM : MirrorInv t)
    (hne1 : ∀ u e : String, ¬(it.pk = "USER#" ++ u ∧ it.sk = "EVENT#" ++ e))
    (hne2 : ∀ u e : String, ¬(it.pk = "EVENT#" ++ e ∧ it.sk = "REGISTRATION#" ++ u)) :
    MirrorInv (putItem t it) := by
  intro u e
  apply mirrorAgree_of_unchanged u e _ _ (hM u e)
  · rw [getItem_putItem, if_neg (hne1 u e)]
  · rw [getItem_putItem, if_neg (hne2 u e)]

theorem MirrorInv_deleteItem_nm (t : Table) (pk sk : String) (hM : MirrorInv t)
    (hne1 : ∀ u e : String, ¬(pk = "USER#" ++ u ∧ sk = "EVENT#" ++ e))
    (hne2 : ∀ u e : String, ¬(pk = "EVENT#" ++ e ∧ sk = "REGISTRATION#" ++ u)) :
    MirrorInv (deleteItem t pk sk) := by
  intro u e
  apply mirrorAgree_of_unchanged u e _ _ (hM u e)
  · rw [getItem_deleteItem, if_neg (hne1 u e)]
  · rw [getItem_deleteItem, if_neg (hne2 u e)]

theorem MirrorInv_updateMeta (t : Table) (eid f : String) (v : AttrVal)
    (hM : MirrorInv t) :
    MirrorInv (updateItemSet t ("EVENT#" ++ eid) "METADATA" f v) := by
  intro u e
  apply mirrorAgree_of_unchanged u e _ _ (hM u e)
  · rw [getItem_updateItemSet]
    rw [if_neg (by
      rintro ⟨hc, _⟩
      exact event_pk_ne_user_pk eid u hc)]
  · rw [getItem_updateItemSet]
    rw [if_neg (by
      rintro ⟨_, hc⟩
      exact metadata_ne_reg_sk u hc)]

theorem MirrorInv_urs (t : Table) (uid eid st : String) (hM : MirrorInv t) :
    MirrorInv (update_registration_status t uid eid st) := by
  intro u e
  by_cases hc : uid = u ∧ eid = e
  · obtain ⟨rfl, rfl⟩ := hc
    refine ⟨?_, ?_⟩
    · rw [isSome_urs_byUser, isSome_urs_byEvent]
    · rw [statusAt_urs_byUser, statusAt_urs_byEvent]
  · apply mirrorAgree_of_unchanged u e _ _ (hM u e)
    · rw [getItem_urs_frame]
      · rintro ⟨ha, hb⟩
        exact hc ⟨user_pk_inj ha, event_pk_inj hb⟩
      · rintro ⟨ha, _⟩
        exact event_pk_ne_user_pk eid u ha
    · rw [getItem_urs_frame]
      · rintro ⟨ha, _⟩
        exact user_pk_ne_event_pk uid e ha
      · rintro ⟨ha, hb⟩
        exact hc ⟨reg_sk_inj hb, event_pk_inj ha⟩

theorem MirrorInv_delete_registration (t : Table) (uid eid : String)
    (hM : MirrorInv t) : MirrorInv (delete_registration t uid eid) := by
  intro u e
  by_cases hc : uid = u ∧ eid = e
  · obtain ⟨rfl, rfl⟩ := hc
    refine ⟨?_, ?_⟩
    · rw [getItem_delete_registration_byUser, getItem_delete_registration_byEvent]
    · rw [statusAt, statusAt, fieldAt, fieldAt,
        getItem_delete_registration_byUser, getItem_delete_registration_byEvent]
  · apply mirrorAgree_of_unchanged u e _ _ (hM u e)
    · rw [getItem_delete_registration_frame]
      · rintro ⟨ha, hb⟩
        exact hc ⟨user_pk_inj ha, event_pk_inj hb⟩
      · rintro ⟨ha, _⟩
        exact event_pk_ne_user_pk eid u ha
    · rw [getItem_delete_registration_frame]
      · rintro ⟨ha, _⟩
        exact user_pk_ne_event_pk uid e ha
      · rintro ⟨ha, hb⟩
        exact hc ⟨reg_sk_inj hb, event_pk_inj ha⟩

theorem MirrorInv_create_registration (t : Table) (r : DomainRegistration)
    (hM : MirrorInv t) : MirrorInv (create_registration t r) := by
  intro u e
  by_cases hc : r.user_id = u ∧ r.event_id = e
  · refine ⟨?_, ?_⟩
    · rw [getItem_create_registration_byUser, getItem_create_registration_byEvent,
        if_pos hc, if_pos hc]
      rfl
    · rw [statusAt, statusAt, fieldAt, fieldAt,
        getItem_create_registration_byUser, getItem_create_registration_byEvent,
        if_pos hc, if_pos hc]
      rfl
  · apply mirrorAgree_of_unchanged u e _ _ (hM u e)
    · rw [getItem_create_registration_byUser, if_neg hc]
    · rw [getItem_create_registration_byEvent, if_neg hc]

theorem MirrorInv_add_to_waitlist (t : Table) (uid eid ts : String)
    (hM : MirrorInv t) : MirrorInv (add_to_waitlist t uid eid ts) := by
  rw [add_to_waitlist]
  apply MirrorInv_putItem _ _ hM
  · intro u e
    rintro ⟨hc, _⟩
    exact event_pk_ne_user_pk eid u hc
  · intro u e
    rintro ⟨_, hc⟩
    exact waitlist_sk_ne_reg_sk u (strStarts_waitlist_sk ts uid) hc

theorem MirrorInv_applyUpdates (us : List (String × AttrVal)) (t : Table)
    (eid : String) (hM : MirrorInv t) :
    MirrorInv (us.foldl
      (fun acc kv => updateItemSet acc ("EVENT#" ++ eid) "METADATA" kv.1 kv.2)
      t) := by
  induction us generalizing t with
  | nil => exact hM
  | cons kv us ih =>
    rw [List.foldl_cons]
    exact ih _ (MirrorInv_updateMeta t eid kv.1 kv.2 hM)

theorem update_event_ok_inv {t : Table} {eid : String} {u : EventUpdate}
    {ts : String} {t2 : Table} (h : update_event t eid u ts = .ok t2) :
    t2 = (updateData u ++ [("updatedAt", AttrVal.s ts)]).foldl
      (fun acc kv => updateItemSet acc ("EVENT#" ++ eid) "METADATA" kv.1 kv.2)
      t := by
  rw [update_event] at h
  by_cases hc : updateData u = []
  · rw [if_pos hc] at h
    exact Except.noConfusion h
  · rw [if_neg hc, event_repo_update] at h
    cases hg : event_get_by_id t eid with
    | error e =>
      rw [hg] at h
      exact Except.noConfusion h
    | ok oe =>
      cases oe with
      | none =>
        rw [hg] at h
        exact Except.noConfusion h
      | some ev =>
        rw [hg] at h
        cases h
        rfl

theorem delete_event_ok_inv {t : Table} {eid : String} {t2 : Table}
    (h : delete_event t eid = .ok t2) :
    t2 = deleteItem t ("EVENT#" ++ eid) "METADATA" := by
  rw [delete_event, event_repo_delete] at h
  cases hg : event_get_by_id t eid with
  | error e =>
    rw [hg] at h
    exact Except.noConfusion h
  | ok oe =>
    cases oe with
    | none =>
      rw [hg] at h
      exact Except.noConfusion h
    | some ev =>
      rw [hg] at h
      cases h
      rfl

theorem MirrorInv_register (t : Table) (uid eid ts : String)
    (hM : MirrorInv t) : MirrorInv (register_user t uid eid ts).1 := by
  cases h1 : user_get_by_id t uid with
  | error e =>
    rw [reg_eq_user_fault eid ts h1]
    exact hM
  | ok ou =>
    cases ou with
    | none =>
      rw [reg_eq_user_absent eid ts h1]
      exact hM
    | some du =>
      cases h2 : event_get_by_id t eid with
      | error e =>
        rw [reg_eq_event_fault ts h1 h2]
        exact hM
      | ok oe =>
        cases oe with
        | none =>
          rw [reg_eq_event_absent ts h1 h2]
          exact hM
        | some ev =>
          cases h3 : get_registration t uid eid with
          | error e =>
            rw [reg_eq_regread_fault ts h1 h2 h3]
            exact hM
          | ok orx =>
            cases orx with
            | some r =>
              rw [reg_eq_already ts h1 h2 h3]
              exact hM
            | none =>
              by_cases h4 : ev.current_registrations ≥ ev.capacity
              · by_cases h5 : ev.waitlist_enabled = false
                · rw [reg_eq_cap ts h1 h2 h3 h4 h5]
                  exact hM
                · rw [reg_eq_waitlist ts h1 h2 h3 h4 h5]
                  exact MirrorInv_create_registration _ _
                    (MirrorInv_add_to_waitlist _ _ _ _ hM)
              · cases h6 : increment_registrations t eid with
                | error e =>
                  rw [reg_eq_incr_fail ts h1 h2 h3 h4 h6]
                  exact hM
                | ok t1 =>
                  rw [reg_eq_incr_ok ts h1 h2 h3 h4 h6]
                  apply MirrorInv_create_registration
                  obtain ⟨it0, k, hg0, ha0, ht1⟩ := increment_inv h6
                  rw [ht1]
                  exact MirrorInv_updateMeta _ _ _ _ hM

theorem MirrorInv_unregister (t : Table) (uid eid : String)
    (hM : MirrorInv t) : MirrorInv (unregister_user t uid eid).1 := by
  cases hr : get_registration t uid eid with
  | error e =>
    rw [unreg_eq_read_fault hr]
    exact hM
  | ok orx =>
    cases orx with
    | none =>
      rw [unreg_eq_absent hr]
      exact hM
    | some reg =>
      by_cases hst : reg.registration_status = "registered"
      · cases hd : decrement_registrations t eid with
        | error e =>
          rw [unreg_eq_dec_fail hr hst hd]
          exact hM
        | ok t1 =>
          obtain ⟨it0, k, hg0, ha0, ht1⟩ := decrement_inv hd
          have hM1 : MirrorInv t1 := by
            rw [ht1]
            exact MirrorInv_updateMeta _ _ _ _ hM
          cases hw : get_first_waitlisted t1 eid with
          | none =>
            rw [unreg_eq_no_waitlist hr hst hd hw]
            exact MirrorInv_delete_registration _ _ _ hM1
          | some w =>
            have hwq := query_head_min (hw : (query t1 ("EVENT#" ++ eid)
              "WAITLIST#").head? = some w)
            have hwpk : w.pk = "EVENT#" ++ eid := hwq.1.2.1
            have hwsk : strStarts w.sk "WAITLIST#" = true := hwq.1.2.2
            cases ha : getAttr w "userId" with
            | none =>
              rw [unreg_eq_wuid_none hr hst hd hw ha]
              exact hM1
            | some v =>
              cases v with
              | n x =>
                rw [unreg_eq_wuid_num hr hst hd hw ha]
                exact hM1
              | b x =>
                rw [unreg_eq_wuid_bool hr hst hd hw ha]
                exact hM1
              | s wuid =>
                have hM3 : MirrorInv (remove_from_waitlist
                    (update_registration_status t1 wuid eid "registered")
                    w.pk w.sk) := by
                  rw [remove_from_waitlist]
                  apply MirrorInv_deleteItem_nm _ _ _
                    (MirrorInv_urs _ _ _ _ hM1)
                  · intro u e
                    rintro ⟨hc, _⟩
                    rw [hwpk] at hc
                    exact event_pk_ne_user_pk eid u hc
                  · intro u e
                    rintro ⟨_, hc⟩
                    exact waitlist_sk_ne_reg_sk u hwsk hc
                cases hi : increment_registrations (remove_from_waitlist
                    (update_registration_status t1 wuid eid "registered")
                    w.pk w.sk) eid with
                | error e =>
                  rw [unreg_eq_promote_incr_fail hr hst hd hw ha hi]
                  exact hM3
                | ok t4 =>
                  rw [unreg_eq_promote hr hst hd hw ha hi]
                  apply MirrorInv_delete_registration
                  obtain ⟨it3, k3, hg3, ha3, ht4⟩ := increment_inv hi
                  rw [ht4]
                  exact MirrorInv_updateMeta _ _ _ _ hM3
      · rw [unreg_eq_waitlisted hr hst]
        exact MirrorInv_delete_registration _ _ _ hM

theorem MirrorInv_applyOp (t : Table) (op : Op) (hM : MirrorInv t) :
    MirrorInv (applyOp t op) := by
  cases op with
  | register uid eid ts => exact MirrorInv_register t uid eid ts hM
  | unregister uid eid => exact MirrorInv_unregister t uid eid hM
  | createUser uid nm ts =>
    show MirrorInv (create_user t uid nm ts).1
    cases hx : getItem t ("USER#" ++ uid) "PROFILE" with
    | some it =>
      rw [create_user, user_repo_create, hx]
      exact hM
    | none =>
      rw [create_user, user_repo_create, hx]
      apply MirrorInv_putItem _ _ hM
      · intro u e
        rintro ⟨_, hc⟩
        exact profile_ne_event_sk e hc
      · intro u e
        rintro ⟨hc, _⟩
        exact user_pk_ne_event_pk uid e hc
  | createEvent eid ti de da lo cap org st wl ts =>
    show MirrorInv (create_event t eid ti de da lo cap org st wl ts).1
    rw [create_event, event_repo_create]
    apply MirrorInv_putItem _ _ hM
    · intro u e
      rintro ⟨hc, _⟩
      exact event_pk_ne_user_pk eid u hc
    · intro u e
      rintro ⟨_, hc⟩
      exact metadata_ne_reg_sk u hc
  | updateEvent eid u ts =>
    show MirrorInv (match update_event t eid u ts with
      | .ok t2 => t2
      | .error _ => t)
    cases h : update_event t eid u ts with
    | error e => exact hM
    | ok t2 =>
      show MirrorInv t2
      rw [update_event_ok_inv h]
      exact MirrorInv_applyUpdates _ t eid hM
  | deleteEvent eid =>
    show MirrorInv (match delete_event t eid with
      | .ok t2 => t2
      | .error _ => t)
    cases h : delete_event t eid with
    | error e => exact hM
    | ok t2 =>
      show MirrorInv t2
      rw [delete_event_ok_inv h]
      apply MirrorInv_deleteItem_nm _ _ _ hM
      · intro u e
        rintro ⟨hc, _⟩
        exact event_pk_ne_user_pk eid u hc
      · intro u e
        rintro ⟨_, hc⟩
        exact metadata_ne_reg_sk u hc

/-- C7: after any sequence of API operations from the empty table, the two
mirror records of every (user, event) pair either both exist with the same
`registrationStatus` or neither exists. -/
theorem C7_mirror_records_agree (ops : List Op) (u e : String) :
    mirrorAgree (runOps [] ops) u e := by
  suffices h : ∀ (l : List Op) (t : Table), MirrorInv t → MirrorInv (runOps t l) by
    exact h ops [] (fun u2 e2 => ⟨rfl, rfl⟩) u e
  intro l
  induction l with
  | nil => exact fun t h => h
  | cons op l ih =>
    intro t h
    rw [runOps_cons]
    exact ih _ (MirrorInv_applyOp t op h)
